import Mathlib

set_option autoImplicit false

/-!
# Receipt verification and reconciliation (`lib/apple/index.js`)

A shallow embedding of the Apple receipt verifier: the field extractors, the
result parser, the verification client, the environment fallback and the claim
reconciler, followed by theorems about them.

JavaScript values are embedded as follows.

* `JSON` is the type of values that `JSON.parse` returns.  Numbers are restricted
  to integers: `num n` is the double nearest to `n`, as `JSON.parse` reads the
  numeral of `n`, so the number whose value is `n` whenever a double holds `n`.
  Reading a number from a string (`parseInt`) rounds to the nearest double.
  Printing a number (`numberToString`) yields the shortest digits that read
  back as the same double, in exponent form from `1e21` on.  Fractional numbers
  are not part of the model.
* Strings are Lean strings, that is sequences of Unicode scalar values.  A
  JavaScript string holding a lone surrogate has no counterpart.
* `undefined` is `none` of an `Option`.
* An abrupt completion (`throw`) is the `error` case of `Except JSError`.
-/

namespace ZnsIap

/-! ## Values -/

/-- A value returned by `JSON.parse`. An object is its list of own properties,
looked up by first match. -/
inductive JSON where
  | null
  | bool (b : Bool)
  | num (n : Int)
  | str (s : String)
  | arr (xs : List JSON)
  | obj (kvs : List (String × JSON))
  deriving Repr, Inhabited

/-- A JavaScript number as `parseInt` produces it: `NaN`, an integer-valued
double, or an infinity (`neg = true` for `-Infinity`). Negative zero is
identified with zero: the two are equal under `===` and print alike. -/
inductive JSNum where
  | nan
  | fin (n : Int)
  | inf (neg : Bool)
  deriving DecidableEq, Repr, Inhabited

/-- The exceptions the program meets.
* `typeError`: raised by the engine (reading a property of `null` or
  `undefined`, calling a value that is not a function, converting an object
  without a usable `toString` to a primitive); its message is engine specific.
* `syntaxError`: raised by `JSON.parse`.
* `assertion m`: the `AssertionError` of `assert.equal` with message `m`.
* `error m st`: `new Error(m)`, with the `status` property when it was set.
* `transport d`: the error the HTTP collaborator reports; it is a Node system
  error and carries no `status` property. -/
inductive JSError where
  | typeError
  | syntaxError
  | assertion (message : String)
  | error (message : String) (status : Option JSNum)
  | transport (description : String)
  deriving DecidableEq, Repr, Inhabited

/-- The expression `error.status`; `none` is `undefined`. -/
def JSError.status : JSError → Option JSNum
  | .error _ st => st
  | _ => none

/-- The expression `error.message` for the errors the program creates itself. -/
def JSError.message : JSError → Option String
  | .error m _ => some m
  | .assertion m => some m
  | _ => none

/-! ## Engine primitives -/

/-- Decimal digit value of a character. -/
def digitVal (c : Char) : Nat := c.toNat - '0'.toNat

/-- Value of a list of decimal digits, most significant first. -/
def digitsVal (cs : List Char) : Nat := cs.foldl (fun acc c => 10 * acc + digitVal c) 0

/-- Decimal digits of a natural number, least significant first; `fuel` bounds
the number of digits. -/
def revDigits : Nat → Nat → List Char
  | 0, _ => []
  | fuel + 1, n =>
    if n < 10 then [Char.ofNat (n + 48)]
    else Char.ofNat (n % 10 + 48) :: revDigits fuel (n / 10)

/-- Decimal numeral of a natural number. -/
def natDecimal (n : Nat) : String := String.mk (revDigits (n + 1) n).reverse

/-- Decimal numeral of an integer, every digit written out. This is the
mathematical numeral, used to say which strings denote which integers; the
string that the engine prints for a number is `numberToString`. -/
def intDecimal : Int → String
  | .ofNat n => natDecimal n
  | .negSucc n => "-" ++ natDecimal (n + 1)

/-- Number of low bits that do not fit a 53-bit significand: how often `n` is
halved before it drops below `2^53`; `fuel` bounds the count. -/
def excessBits : Nat → Nat → Nat
  | 0, _ => 0
  | fuel + 1, n => if n < 2 ^ 53 then 0 else excessBits fuel (n / 2) + 1

/-- Rounding of a natural number to the nearest double, ties to even: the
53 leading bits are kept. -/
def roundDouble (n : Nat) : Nat :=
  if n < 2 ^ 53 then n
  else
    let sh := excessBits n n
    let q := n / 2 ^ sh
    let r := n % 2 ^ sh
    let q1 := if 2 ^ (sh - 1) < r ∨ (r = 2 ^ (sh - 1) ∧ q % 2 = 1) then q + 1 else q
    q1 * 2 ^ sh

/-- Number of decimal digits of a natural number. -/
def numDigits (n : Nat) : Nat := (revDigits (n + 1) n).length

/-- Among the two multiples of `10^j` that enclose `x`, one that a double reads
back as `x`: the closer one when both do, the one with the even multiplier when
both are equally close. -/
def shortestCandidate (x j : Nat) : Option Nat :=
  let p := 10 ^ j
  let lo := x / p * p
  let hi := lo + p
  if roundDouble lo = x then
    if roundDouble hi = x then
      if x - lo < hi - x then some lo
      else if hi - x < x - lo then some hi
      else if (lo / p) % 2 = 0 then some lo else some hi
    else some lo
  else if roundDouble hi = x then some hi
  else none

/-- Search for the decimal with the fewest significant digits that reads back
as `x`, from `j` trailing zeros downwards. -/
def shortestFrom (x : Nat) : Nat → Nat
  | 0 => x
  | j + 1 =>
    match shortestCandidate x (j + 1) with
    | some m => m
    | none => shortestFrom x j

/-- The integer whose digits `Number::toString` prints for the double `x`: the
one with the fewest significant digits that rounds to `x`, the closest to `x`
among those. -/
def shortestDecimal (x : Nat) : Nat := shortestFrom x (numDigits x - 1)

/-- Decimal digits of `m` without its trailing zeros, most significant first. -/
def significantDigits (m : Nat) : List Char :=
  ((revDigits (m + 1) m).dropWhile (fun c => c == '0')).reverse

/-- Exponent form of `Number::toString`: the first significant digit, the
others after a point, then `e+` and the decimal exponent. -/
def exponentForm (m : Nat) : String :=
  match significantDigits m with
  | [] => natDecimal m
  | [d] => String.mk (d :: 'e' :: '+' :: (natDecimal (numDigits m - 1)).data)
  | d :: ds => String.mk (d :: '.' :: ds ++ 'e' :: '+' :: (natDecimal (numDigits m - 1)).data)

/-- `Number::toString` for the double nearest to the natural number `x`:
`Infinity` when that is infinite, otherwise the shortest digits that read back
as the double, written out in full up to 21 digits and in exponent form
beyond. -/
def printNat (x : Nat) : String :=
  if 972 ≤ excessBits (roundDouble x) (roundDouble x) then "Infinity"
  else if numDigits (shortestDecimal (roundDouble x)) ≤ 21 then
    natDecimal (shortestDecimal (roundDouble x))
  else exponentForm (shortestDecimal (roundDouble x))

/-- `String(x)` for the double nearest to the integer `x`. A double that holds
an integer is nearest to itself, so this is `String` of that double. -/
def numberToString : Int → String
  | .ofNat n => printNat n
  | .negSucc n => "-" ++ printNat (n + 1)

/-- `String(x)` for a number. -/
def JSNum.toJSString : JSNum → String
  | .nan => "NaN"
  | .fin n => numberToString n
  | .inf false => "Infinity"
  | .inf true => "-Infinity"

/-- The index that a property key denotes, when the key is the canonical
decimal form of a natural number (`"0"`, `"7"`, `"10"`, not `"07"`). -/
def canonicalIndex (k : String) : Option Nat :=
  match k.data with
  | [] => none
  | c :: cs =>
    if (c :: cs).all Char.isDigit && (c != '0' || cs.isEmpty) then some (digitsVal (c :: cs))
    else none

/-- UTF-16 code units of a character. -/
def utf16Units (c : Char) : List Nat :=
  if c.toNat < 65536 then [c.toNat]
  else [55296 + (c.toNat - 65536) / 1024, 56320 + (c.toNat - 65536) % 1024]

/-- UTF-16 code units of a string: the elements of a JavaScript string. -/
def stringUnits (s : String) : List Nat := s.data.flatMap utf16Units

/-- First match in a property list. -/
def lookupKey : List (String × JSON) → String → Option JSON
  | [], _ => none
  | (k, v) :: rest, key => if k = key then some v else lookupKey rest key

/-- Own property `v[k]` of a parsed value, `none` when `v` has no own property
`k`. Arrays and strings own their indices and `length`; an index into a string
yields the one-unit string at that position (exact unless that unit is half of
a surrogate pair). -/
def getOwn? (v : JSON) (k : String) : Option JSON :=
  match v with
  | .obj kvs => lookupKey kvs k
  | .arr xs =>
    if k = "length" then some (.num xs.length)
    else (canonicalIndex k).bind (fun i => xs.get? i)
  | .str s =>
    if k = "length" then some (.num (stringUnits s).length)
    else (canonicalIndex k).bind (fun i =>
      ((stringUnits s).get? i).map (fun u => .str (String.singleton (Char.ofNat u))))
  | _ => none

/-- The call `v.hasOwnProperty(k)`. Reading a property of `null` throws; an
object whose own property `hasOwnProperty` shadows the inherited method throws
because a parsed value is never callable; everything else reaches
`Object.prototype.hasOwnProperty`. -/
def hasOwnProperty (v : JSON) (k : String) : Except JSError Bool :=
  match v with
  | .null => .error .typeError
  | .obj kvs =>
    match lookupKey kvs "hasOwnProperty" with
    | some _ => .error .typeError
    | none => .ok (lookupKey kvs k).isSome
  | _ => .ok (getOwn? v k).isSome

/-- The expression `v[k]` for a key that no built-in prototype defines (`"0"`,
`"status"`, `"receipt"`, `"product_id"`, `"transaction_id"`): the own property
or `undefined`; reading from `null` throws. -/
def getProp (v : JSON) (k : String) : Except JSError (Option JSON) :=
  match v with
  | .null => .error .typeError
  | _ => .ok (getOwn? v k)

/-- Truthiness of a parsed value. -/
def truthy : JSON → Bool
  | .null => false
  | .bool b => b
  | .num n => n != 0
  | .str s => s != ""
  | .arr _ => true
  | .obj _ => true

/-- Truthiness of a value that may be `undefined`. -/
def truthy? : Option JSON → Bool
  | none => false
  | some v => truthy v

/-- The string of one element inside `Array.prototype.join`: the empty string
for `null`, otherwise the element converted to a string, given as `printed`. -/
def elementString (x : JSON) (printed : Except JSError String) : Except JSError String :=
  match x with
  | .null => .ok ""
  | _ => printed

/-- One step of `Array.prototype.join` with the default separator: the first
element, then a comma and the rest unless the rest is empty. -/
def joinStep (first : Except JSError String) (restEmpty : Bool)
    (rest : Except JSError String) : Except JSError String :=
  match first with
  | .error e => .error e
  | .ok a =>
    if restEmpty then .ok a
    else
      match rest with
      | .ok b => .ok (a ++ "," ++ b)
      | .error e => .error e

mutual
/-- `String(v)`, also the conversion of `v` to a property key. An object prints
as `[object Object]` unless an own property `toString` shadows the inherited
method, in which case no conversion to a primitive exists and the engine
throws. An array prints its elements joined by commas. -/
def toJSString : JSON → Except JSError String
  | .null => .ok "null"
  | .bool b => .ok (if b then "true" else "false")
  | .num n => .ok (numberToString n)
  | .str s => .ok s
  | .arr xs => joinElems xs
  | .obj kvs =>
    match lookupKey kvs "toString" with
    | some _ => .error .typeError
    | none => .ok "[object Object]"
/-- `Array.prototype.join` with the default separator over the elements of an
array. -/
def joinElems : List JSON → Except JSError String
  | [] => .ok ""
  | x :: rest => joinStep (elementString x (toJSString x)) rest.isEmpty (joinElems rest)
end

/-! ## Field extractor -/

/-- Source: `getReceiptFieldValue(receipt, field)`. -/
def getReceiptFieldValue (receipt : JSON) (field : String) : Except JSError JSON := do
  if ← hasOwnProperty receipt field then
    return (getOwn? receipt field).getD .null
  if ← hasOwnProperty receipt "in_app" then
    let inApp := (getOwn? receipt "in_app").getD .null
    match ← getProp inApp "0" with
    | none => pure ()
    | some first =>
      if truthy first then
        if ← hasOwnProperty first field then
          return (getOwn? first field).getD .null
  return .null

/-- The set object that `getReceiptFieldValueHash` builds: a plain object
(`const result = {}`) whose own properties all hold `true`; the list holds the
own keys in insertion order. -/
abbrev Hash := List String

/-- The assignment `result[key] = true` on a plain object. For the key
`__proto__` the assignment reaches the prototype setter of `Object.prototype`,
which ignores a value that is neither an object nor `null`: no own property is
created. -/
def Hash.set (h : Hash) (key : String) : Hash :=
  if key = "__proto__" then h
  else if key ∈ h then h
  else h ++ [key]

/-- Property names of `Object.prototype`, which every plain object inherits.
All of them hold functions, except the accessor `__proto__`, which yields the
prototype object: every inherited value is truthy. -/
def objectPrototypeKeys : List String :=
  ["constructor", "__defineGetter__", "__defineSetter__", "hasOwnProperty",
   "__lookupGetter__", "__lookupSetter__", "isPrototypeOf", "propertyIsEnumerable",
   "toString", "valueOf", "__proto__", "toLocaleString"]

/-- Truthiness of the expression `hash[key]`: an own property holds `true`, an
inherited one holds a function or an object, a missing one is `undefined`. -/
def Hash.lookupTruthy (h : Hash) (key : String) : Bool :=
  decide (key ∈ h) || decide (key ∈ objectPrototypeKeys)

/-- The loop of `getReceiptFieldValueHash` over `receipt.in_app`. The test
`_.isString(inAppInfo[field])` holds exactly when `inAppInfo` has an own
property `field` holding a string: what a parsed value inherits from a built-in
prototype is a function, an object or a number. -/
def hashLoop (field : String) : List JSON → Hash → Hash
  | [], result => result
  | inAppInfo :: rest, result =>
    if truthy inAppInfo then
      match getOwn? inAppInfo field with
      | some (.str s) => hashLoop field rest (Hash.set result s)
      | _ => hashLoop field rest result
    else hashLoop field rest result

/-- Source: `getReceiptFieldValueHash(receipt, field)`. The match on the value
of `in_app` is the test `_.isArray(receipt.in_app)`. -/
def getReceiptFieldValueHash (receipt : JSON) (field : String) : Except JSError Hash := do
  if ← hasOwnProperty receipt field then
    let key ← toJSString ((getOwn? receipt field).getD .null)
    return Hash.set [] key
  else if ← hasOwnProperty receipt "in_app" then
    match (getOwn? receipt "in_app").getD .null with
    | .arr inApp => return hashLoop field inApp []
    | _ => return []
  else
    return []

/-! ## Result parser -/

/-- Source: the table `responses`. -/
def responses : List (String × String) :=
  [("21000", "The App Store could not read the JSON object you provided."),
   ("21002", "The data in the receipt-data property was malformed or missing."),
   ("21003", "The receipt could not be authenticated."),
   ("21004", "The shared secret you provided does not match the shared secret on file for your account."),
   ("21005", "The receipt server is not currently available."),
   ("21006", "This receipt is valid but the subscription has expired. When this status code is returned to your server, the receipt data is also decoded and returned as part of the response."),
   ("21007", "This receipt is from the test environment, but it was sent to the production service for verification. Send it to the test environment service instead."),
   ("21008", "This receipt is from the production receipt, but it was sent to the test environment service for verification. Send it to the production environment service instead.")]

/-- White space and line terminators that `parseInt` skips. -/
def isJSWhitespace (c : Char) : Bool :=
  decide (c.toNat ∈ [9, 10, 11, 12, 13, 32, 160, 5760, 8232, 8233, 8239, 8287, 12288, 65279]) ||
    (decide (8192 ≤ c.toNat) && decide (c.toNat ≤ 8202))

/-- The number with the given sign and magnitude, as a double; a magnitude
that rounds to `2^1024` or more, that is one with 972 or more excess bits, is
infinite. -/
def toNumber (neg : Bool) (n : Nat) : JSNum :=
  if 972 ≤ excessBits (roundDouble n) (roundDouble n) then .inf neg
  else .fin (if neg then -(roundDouble n : Int) else (roundDouble n : Int))

/-- The optional sign in front of the digits that `parseInt` reads: whether
it is a minus, and the characters after it. -/
def splitSign : List Char → Bool × List Char
  | '-' :: r => (true, r)
  | '+' :: r => (false, r)
  | r => (false, r)

/-- The call `parseInt(s, 10)` on a string: leading white space is skipped, a
sign is read, then the longest run of decimal digits; without a digit the result
is `NaN`. -/
def parseInt10 (s : String) : JSNum :=
  let signed := splitSign (s.data.dropWhile isJSWhitespace)
  let ds := signed.2.takeWhile Char.isDigit
  if ds.isEmpty then .nan else toNumber signed.1 (digitsVal ds)

/-- The call `parseInt(v, 10)` on a value that may be `undefined`: the value is
converted to a string first. -/
def parseIntOf : Option JSON → Except JSError JSNum
  | none => .ok (parseInt10 "undefined")
  | some v =>
    match toJSString v with
    | .ok s => .ok (parseInt10 s)
    | .error e => .error e

/-- Sign of the difference `x - y` of two numbers, `0` when the difference is
`NaN`: `Array.prototype.sort` reads a comparator result only through its sign
and takes `NaN` for `0`. Rounding the difference of two doubles keeps its
sign. -/
def subSign : JSNum → JSNum → Int
  | .fin a, .fin b => a - b
  | .nan, _ => 0
  | _, .nan => 0
  | .inf n, .inf m => if n = m then 0 else if n then -1 else 1
  | .inf n, .fin _ => if n then -1 else 1
  | .fin _, .inf n => if n then 1 else -1

/-- Source: the comparator passed to `sort` in `parseResult`,
`parseInt(a.transaction_id, 10) - parseInt(b.transaction_id, 10)`. -/
def compareTransactions (a b : JSON) : Except JSError Int := do
  let x ← parseIntOf (← getProp a "transaction_id")
  let y ← parseIntOf (← getProp b "transaction_id")
  return subSign x y

/-- Insertion of one element into a sorted list, before the first element it
does not exceed. -/
def sortInsert (cmp : JSON → JSON → Except JSError Int) (a : JSON) :
    List JSON → Except JSError (List JSON)
  | [] => .ok [a]
  | b :: rest =>
    match cmp a b with
    | .error e => .error e
    | .ok c =>
      if c ≤ 0 then .ok (a :: b :: rest)
      else
        match sortInsert cmp a rest with
        | .error e => .error e
        | .ok r => .ok (b :: r)

/-- The call `xs.sort(cmp)` as a stable insertion sort. ECMAScript fixes the
result of `Array.prototype.sort` for a consistent comparator up to the order of
elements that compare equal, and requires that order to be kept. A comparator
that throws aborts the sort; every element of a list of two or more takes part
in a comparison. -/
def jsSort (cmp : JSON → JSON → Except JSError Int) : List JSON → Except JSError (List JSON)
  | [] => .ok []
  | a :: rest =>
    match jsSort cmp rest with
    | .error e => .error e
    | .ok sorted => sortInsert cmp a sorted

/-- The object that `parseResult` returns. `productId` and `transactionId` may
be `undefined`. -/
structure ParsedResult where
  receipt : JSON
  latestReceiptInfo : Option (List JSON)
  productId : Option JSON
  transactionId : Option JSON
  deriving Repr, Inhabited

/-- The status error that `parseResult` throws. -/
def statusError (status : JSNum) : JSError :=
  let msg :=
    match responses.lookup status.toJSString with
    | some m => m
    | none => "Unknown status code: " ++ status.toJSString
  .error msg (some status)

/-- Source: `parseResult(result)`. `JSONparse` is the built-in `JSON.parse`,
`none` where it throws a `SyntaxError`. -/
def parseResult (JSONparse : String → Option JSON) (resultString : String) :
    Except JSError ParsedResult := do
  let result ←
    match JSONparse resultString with
    | some v => pure v
    | none => throw JSError.syntaxError
  let status ← parseIntOf (← getProp result "status")
  if status ≠ .fin 0 then
    throw (statusError status)
  let receipt ←
    match ← getProp result "receipt" with
    | some r => pure r
    | none => throw JSError.typeError
  let productId ← getReceiptFieldValue receipt "product_id"
  let transactionId ← getReceiptFieldValue receipt "transaction_id"
  if ← hasOwnProperty result "latest_receipt_info" then
    let info := (getOwn? result "latest_receipt_info").getD .null
    if truthy? (← getProp info "0") then
      match info with
      | .arr xs =>
        let latestReceiptInfo ← jsSort compareTransactions xs
        match latestReceiptInfo.getLast? with
        | none => throw JSError.typeError
        | some last =>
          return { receipt := receipt, latestReceiptInfo := some latestReceiptInfo,
                   productId := ← getProp last "product_id",
                   transactionId := ← getProp last "transaction_id" }
      | _ => throw JSError.typeError
  return { receipt := receipt, latestReceiptInfo := none,
           productId := some productId, transactionId := some transactionId }

/-! ## Verification client -/

/-- Source: the table `apiUrls`. -/
def apiUrls.sandbox : String := "https://sandbox.itunes.apple.com/verifyReceipt"

/-- Source: the table `apiUrls`. -/
def apiUrls.production : String := "https://buy.itunes.apple.com/verifyReceipt"

/-- The object `jsonData` sent as the request body: the property
`receipt-data`, and the property `password` when it was set. -/
structure RequestBody where
  receiptData : String
  password : Option String
  deriving DecidableEq, Repr, Inhabited

/-- What the HTTP collaborator `https.post` hands to its completion handler:
either a transport error, or a response with its status code and raw body. -/
inductive PostResult where
  | failure (description : String)
  | response (statusCode : Int) (body : String)
  deriving DecidableEq, Repr, Inhabited

/-- The second argument that `verify` passes to its callback: nothing
(`cb(error)`), the empty object (`cb(error, \x7b\x7d)`) or the parsed result. -/
inductive ResultArg where
  | undefined
  | empty
  | parsed (r : ParsedResult)
  deriving Repr, Inhabited

/-- The arguments of one call of the callback of `verify`. -/
structure Completion where
  error : Option JSError
  result : ResultArg
  deriving Repr, Inhabited

/-- One HTTP request: the URL and the body posted to it. -/
abbrev Request := String × RequestBody

/-- Source: `verify(environmentUrl, options, cb)`, as the arguments with which
`cb` is called. `post` is the collaborator `https.post`, a function from the
URL and the request body to what it reports; `log` holds the requests issued
so far and is returned with this one appended. -/
def verify (JSONparse : String → Option JSON)
    (post : String → RequestBody → PostResult)
    (environmentUrl : String) (json : RequestBody) (log : List Request) :
    Completion × List Request :=
  let sent := log ++ [(environmentUrl, json)]
  match post environmentUrl json with
  | .failure d => ({ error := some (.transport d), result := .undefined }, sent)
  | .response statusCode resultString =>
    if statusCode ≠ 200 then
      ({ error := some (.error ("Received " ++ numberToString statusCode ++
          " status code with body: " ++ resultString) none),
         result := .undefined }, sent)
    else
      match parseResult JSONparse resultString with
      | .error e => ({ error := some e, result := .empty }, sent)
      | .ok resultObject => ({ error := none, result := .parsed resultObject }, sent)

/-! ## Claim reconciler and environment fallback -/

/-- Hexadecimal digit, lower case. -/
def hexDigit (n : Nat) : Char := "0123456789abcdef".data.getD n '0'

/-- One character of a string quoted by `JSON.stringify`. -/
def jsonEscape (c : Char) : List Char :=
  if c.toNat = 34 then [Char.ofNat 92, Char.ofNat 34]
  else if c.toNat = 92 then [Char.ofNat 92, Char.ofNat 92]
  else if c.toNat = 8 then [Char.ofNat 92, 'b']
  else if c.toNat = 9 then [Char.ofNat 92, 't']
  else if c.toNat = 10 then [Char.ofNat 92, 'n']
  else if c.toNat = 12 then [Char.ofNat 92, 'f']
  else if c.toNat = 13 then [Char.ofNat 92, 'r']
  else if c.toNat < 32 then
    [Char.ofNat 92, 'u', '0', '0', hexDigit (c.toNat / 16), hexDigit (c.toNat % 16)]
  else [c]

/-- A string quoted by `JSON.stringify`. -/
def jsonQuote (s : String) : String :=
  String.mk ([Char.ofNat 34] ++ s.data.flatMap jsonEscape ++ [Char.ofNat 34])

/-- The array index that a property key denotes, if any. -/
def arrayIndex (k : String) : Option Nat :=
  match canonicalIndex k with
  | some i => if i < 2 ^ 32 - 1 then some i else none
  | none => none

/-- Own keys of a plain object in enumeration order: array indices in
ascending order, then the other keys in insertion order. -/
def ownKeys (h : Hash) : List String :=
  ((h.filterMap arrayIndex).insertionSort (fun a b => a ≤ b)).map natDecimal ++
    h.filter (fun k => (arrayIndex k).isNone)

/-- The call `JSON.stringify(hash)`. -/
def stringifyHash (h : Hash) : String :=
  "\x7b" ++ ",".intercalate ((ownKeys h).map (fun k => jsonQuote k ++ ":true")) ++ "\x7d"

/-- The argument `payment` of `verifyPayment`. `receipt` and `secret` are the
values of `payment.receipt` and `payment.secret`, `none` for `undefined`;
values of other types than the parsed ones (functions, say) behave like the
non-string values here. `productId` and `packageName` are the own properties
of these names when present; the interface declares them strings. -/
structure Payment where
  receipt : Option JSON
  secret : Option JSON
  productId : Option String
  packageName : Option String
  deriving Repr, Inhabited

/-- The object passed as `result` to the callback of `verifyPayment`: the
properties of the parsed result when there is one, and `environment`. -/
structure Result where
  parsed : Option ParsedResult
  environment : String
  deriving Repr, Inhabited

/-- How a call of `verifyPayment` ends.
* `thrown e`: the exception `e` leaves `verifyPayment` itself; the callback is
  never called.
* `uncaught e`: the exception `e` is raised inside the completion handler of
  the HTTP request, where nothing catches it; the callback is never called.
* `called error result`: the callback is called with these arguments, `none`
  standing for `null` in `error` and for a missing `result`. -/
inductive Outcome where
  | thrown (e : JSError)
  | uncaught (e : JSError)
  | called (error : Option JSError) (result : Option Result)
  deriving Repr, Inhabited

/-- A call of `verifyPayment`: the HTTP requests issued, in order, and how the
call ends. -/
structure Run where
  requests : List (String × RequestBody)
  outcome : Outcome
  deriving Repr, Inhabited

/-- The resolved bundle identifier of `checkReceipt`:
`getReceiptFieldValue(receipt, 'bid')`, or when that is `null`,
`getReceiptFieldValue(receipt, 'bundle_id')`. -/
def resolveBundleId (receipt : JSON) : Except JSError JSON := do
  let receiptBundleId ← getReceiptFieldValue receipt "bid"
  match receiptBundleId with
  | .null => getReceiptFieldValue receipt "bundle_id"
  | v => return v

/-- The test `payment.packageName !== receiptBundleId` for a string
`packageName`. -/
def strictNotEqual (packageName : String) : JSON → Bool
  | .str s => packageName != s
  | _ => true

/-- The part of `checkReceipt` after the error test, on the verified receipt:
the error to report, or `none` when both checks pass. -/
def reconcile (payment : Payment) (receipt : JSON) : Except JSError (Option JSError) := do
  let productIdHash ← getReceiptFieldValueHash receipt "product_id"
  match payment.productId with
  | some p =>
    if !productIdHash.lookupTruthy p then
      return some (.error ("Wrong product ID: " ++ p ++ " (expected: " ++
        stringifyHash productIdHash ++ ")") none)
  | none => pure ()
  let receiptBundleId ← resolveBundleId receipt
  match payment.packageName with
  | some n =>
    if strictNotEqual n receiptBundleId then
      let shown ← toJSString receiptBundleId
      return some (.error ("Wrong bundle ID: " ++ n ++ " (expected: " ++ shown ++ ")") none)
  | none => pure ()
  return none

/-- Source: `checkReceipt(error, result, environment)`, as how the call ends. -/
def checkReceipt (payment : Payment) (c : Completion) (environment : String) : Outcome :=
  let result : Result :=
    { parsed := match c.result with
        | .parsed r => some r
        | _ => none,
      environment := environment }
  match c.error with
  | some e => .called (some e) (some result)
  | none =>
    match result.parsed with
    | none => .uncaught .typeError
    | some r =>
      match reconcile payment r.receipt with
      | .error e => .uncaught e
      | .ok (some e) => .called (some e) (some result)
      | .ok none => .called none (some result)

/-- The character class `[a-zA-Z0-9\/+]` of the regular expression in
`isBase64like`. -/
def isBase64Char (c : Char) : Bool := c.isAlphanum || c == '/' || c == '+'

/-- Source: `isBase64like(str)`, the test of `str` against
`/^[a-zA-Z0-9\/+]+\={0,2}$/`: one or more characters of the class, then at
most two `=`, then the end of the string. No `=` belongs to the class, so the
run of class characters is the longest prefix of such characters. -/
def isBase64like (str : String) : Bool :=
  let body := str.data.takeWhile isBase64Char
  let pad := str.data.dropWhile isBase64Char
  !body.isEmpty && (pad == [] || pad == ['='] || pad == ['=', '='])

/-- UTF-8 bytes of a character. -/
def utf8Bytes (c : Char) : List Nat :=
  let n := c.toNat
  if n < 128 then [n]
  else if n < 2048 then [192 + n / 64, 128 + n % 64]
  else if n < 65536 then [224 + n / 4096, 128 + n / 64 % 64, 128 + n % 64]
  else [240 + n / 262144, 128 + n / 4096 % 64, 128 + n / 64 % 64, 128 + n % 64]

/-- The base64 alphabet. -/
def base64Alphabet : List Char :=
  "ABCDEFGHIJKLMNOPQRSTUVWXYZabcdefghijklmnopqrstuvwxyz0123456789+/".data

/-- The base64 digit of a 6-bit value. -/
def base64Digit (n : Nat) : Char := base64Alphabet.getD n 'A'

/-- Standard base64 of a list of bytes, with padding. -/
def base64Encode : List Nat → List Char
  | [] => []
  | [a] => [base64Digit (a / 4), base64Digit (a % 4 * 16), '=', '=']
  | [a, b] =>
    [base64Digit (a / 4), base64Digit (a % 4 * 16 + b / 16), base64Digit (b % 16 * 4), '=']
  | a :: b :: c :: rest =>
    base64Digit (a / 4) :: base64Digit (a % 4 * 16 + b / 16) ::
      base64Digit (b % 16 * 4 + c / 64) :: base64Digit (c % 64) :: base64Encode rest

/-- The expression `(new Buffer(s, 'utf8')).toString('base64')`. -/
def bufferBase64 (s : String) : String :=
  String.mk (base64Encode (s.data.flatMap utf8Bytes))

/-- The value of `jsonData['receipt-data']` for a string receipt. -/
def receiptData (receipt : String) : String :=
  if isBase64like receipt then receipt else bufferBase64 receipt

/-- Source: the last statement of `verifyPayment`: the production request, and
the sandbox request when production answers with status 21007. -/
def verifyAcrossEnvironments (JSONparse : String → Option JSON)
    (post : String → RequestBody → PostResult) (payment : Payment)
    (jsonData : RequestBody) : Run :=
  let first := verify JSONparse post apiUrls.production jsonData []
  if first.1.error.bind JSError.status = some (.fin 21007) then
    let second := verify JSONparse post apiUrls.sandbox jsonData first.2
    { requests := second.2, outcome := checkReceipt payment second.1 "sandbox" }
  else
    { requests := first.2, outcome := checkReceipt payment first.1 "production" }

/-- Source: `exports.verifyPayment(payment, cb)`. -/
def verifyPayment (JSONparse : String → Option JSON)
    (post : String → RequestBody → PostResult) (payment : Payment) : Run :=
  match payment.receipt with
  | some (.str receipt) =>
    match payment.secret with
    | none =>
      verifyAcrossEnvironments JSONparse post payment
        { receiptData := receiptData receipt, password := none }
    | some (.str secret) =>
      verifyAcrossEnvironments JSONparse post payment
        { receiptData := receiptData receipt, password := some secret }
    | some _ =>
      { requests := [], outcome := .thrown (.assertion "Shared secret must be a string") }
  | _ =>
    { requests := [], outcome := .called (some (.assertion "Receipt must be a string")) none }

/-! ## Vocabulary of the statements -/

/-- The transaction `x` carries the identifier string `s`, which `parseInt`
reads as the integer `n`. -/
def HasTransactionId (x : JSON) (n : Int) : Prop :=
  ∃ s, getOwn? x "transaction_id" = some (.str s) ∧ parseInt10 s = .fin n

/-- The endpoint `url` answers the request `json` with a status error of code
`s`: the HTTP status is 200 and the body parses into a value whose `status`
`parseInt` reads as `s`, not zero. -/
def AnswersStatus (JSONparse : String → Option JSON)
    (post : String → RequestBody → PostResult) (url : String) (json : RequestBody)
    (s : JSNum) : Prop :=
  ∃ text result v, post url json = .response 200 text ∧ JSONparse text = some result ∧
    getProp result "status" = .ok v ∧ parseIntOf v = .ok s ∧ s ≠ .fin 0

/-- A character of the class `[A-Za-z0-9/+]`, in the words of the
specification. -/
def IsBase64ClassChar (c : Char) : Prop :=
  (65 ≤ c.toNat ∧ c.toNat ≤ 90) ∨ (97 ≤ c.toNat ∧ c.toNat ≤ 122) ∨
    (48 ≤ c.toNat ∧ c.toNat ≤ 57) ∨ c = '/' ∨ c = '+'

/-- The string consists of one or more characters of the class `[A-Za-z0-9/+]`
followed by zero, one or two `=` characters and nothing else, in the words of
the specification. -/
def LooksLikeBase64 (s : String) : Prop :=
  ∃ body pad, s.data = body ++ pad ∧ body ≠ [] ∧ (∀ c ∈ body, IsBase64ClassChar c) ∧
    (pad = [] ∨ pad = ['='] ∨ pad = ['=', '='])

/-! ## Example data -/

/-- A successful response: a receipt without `bid`, with `bundle_id`, whose
transaction list names two products. -/
def exampleVerified : JSON :=
  .obj [("status", .num 0),
        ("receipt", .obj [("bundle_id", .str "com.app"),
          ("in_app", .arr [.obj [("product_id", .str "com.app.pro")],
                           .obj [("product_id", .str "com.app.basic")]])])]

/-- A `JSON.parse` that knows three bodies. -/
def exampleParse (text : String) : Option JSON :=
  if text = "sandbox receipt" then some (.obj [("status", .num 21007)])
  else if text = "verified" then some exampleVerified
  else none

/-- A service whose production endpoint answers 21007 and whose sandbox
endpoint verifies the receipt. -/
def examplePost (url : String) (_ : RequestBody) : PostResult :=
  if url = apiUrls.production then .response 200 "sandbox receipt"
  else .response 200 "verified"

/-- A service whose production endpoint verifies the receipt. -/
def exampleProductionPost (_ : String) (_ : RequestBody) : PostResult :=
  .response 200 "verified"

/-- A payment with the receipt payload `abc` and the given claims. -/
def examplePayment (productId packageName : Option String) : Payment :=
  { receipt := some (.str "abc"), secret := none, productId := productId,
    packageName := packageName }

/-- A service that cannot be reached. -/
def exampleFailingPost (_ : String) (_ : RequestBody) : PostResult :=
  .failure "ECONNREFUSED"

/-- The receipt of `exampleVerified`. -/
def exampleReceipt : JSON :=
  .obj [("bundle_id", .str "com.app"),
        ("in_app", .arr [.obj [("product_id", .str "com.app.pro")],
                         .obj [("product_id", .str "com.app.basic")]])]

/-- A transaction record with the given identifier and product. -/
def exampleTransaction (id product : String) : JSON :=
  .obj [("transaction_id", .str id), ("product_id", .str product)]

/-- A successful response whose renewal history is `txs`. -/
def exampleRenewalResponse (txs : List JSON) : JSON :=
  .obj [("status", .num 0),
        ("receipt", .obj [("product_id", .str "original"), ("transaction_id", .str "1")]),
        ("latest_receipt_info", .arr txs)]

/-- The identifier of the two transactions of the example, `10` and `9`. -/
def exampleKey (x : JSON) : Int :=
  match getOwn? x "product_id" with
  | some (.str "a") => 10
  | _ => 9

/-- A `JSON.parse` for an expired subscription: status 21006 together with the
decoded receipt. -/
def exampleExpiredParse (_ : String) : Option JSON :=
  some (.obj [("status", .num 21006),
              ("receipt", .obj [("product_id", .str "com.app.pro"),
                                ("transaction_id", .str "1")])])

/-! ## Auxiliary lemmas -/

open JSON

theorem digitVal_ofNat (d : Nat) (h : d < 10) : digitVal (Char.ofNat (d + 48)) = d := by
  interval_cases d <;> rfl

theorem isDigit_ofNat (d : Nat) (h : d < 10) : (Char.ofNat (d + 48)).isDigit = true := by
  interval_cases d <;> rfl

theorem revDigits_val (fuel n : Nat) (h : n < fuel) :
    (revDigits fuel n).foldr (fun c acc => 10 * acc + digitVal c) 0 = n := by
  induction fuel generalizing n with
  | zero => omega
  | succ fuel ih =>
    unfold revDigits
    split
    · rename_i h10
      simp [digitVal_ofNat n h10]
    · rename_i h10
      have hlt : n / 10 < fuel := by omega
      simp only [List.foldr_cons, ih (n / 10) hlt]
      rw [digitVal_ofNat (n % 10) (Nat.mod_lt _ (by decide))]
      omega

theorem digitsVal_natDecimal (n : Nat) : digitsVal (natDecimal n).data = n := by
  unfold digitsVal natDecimal
  simp only [List.foldl_reverse]
  exact revDigits_val (n + 1) n (Nat.lt_succ_self n)

theorem natDecimal_injective {a b : Nat} (h : natDecimal a = natDecimal b) : a = b := by
  have := congrArg (fun s => digitsVal s.data) h
  simpa [digitsVal_natDecimal] using this


theorem revDigits_ne_nil (fuel n : Nat) : revDigits (fuel + 1) n ≠ [] := by
  unfold revDigits
  split <;> simp

theorem revDigits_isDigit (fuel n : Nat) : ∀ c ∈ revDigits fuel n, c.isDigit = true := by
  induction fuel generalizing n with
  | zero => simp [revDigits]
  | succ fuel ih =>
    unfold revDigits
    split
    · rename_i h10
      simp [isDigit_ofNat n h10]
    · intro c hc
      rcases List.mem_cons.mp hc with rfl | hc
      · exact isDigit_ofNat _ (Nat.mod_lt _ (by decide))
      · exact ih _ c hc

theorem natDecimal_isDigit (n : Nat) : ∀ c ∈ (natDecimal n).data, c.isDigit = true := by
  intro c hc
  simp only [natDecimal, List.mem_reverse] at hc
  exact revDigits_isDigit _ _ c hc

theorem natDecimal_ne_nil (n : Nat) : (natDecimal n).data ≠ [] := by
  simp only [natDecimal, ne_eq, List.reverse_eq_nil_iff]
  exact revDigits_ne_nil n n

theorem excessBits_small (fuel n : Nat) (h : n < 2 ^ 53) : excessBits fuel n = 0 := by
  cases fuel with
  | zero => rfl
  | succ f => rw [excessBits, if_pos h]

theorem excessBits_spec (fuel n : Nat) (h : n < 2 ^ (53 + fuel)) :
    n / 2 ^ excessBits fuel n < 2 ^ 53 ∧
      (2 ^ 53 ≤ n → 2 ^ 52 ≤ n / 2 ^ excessBits fuel n ∧ 1 ≤ excessBits fuel n) := by
  induction fuel generalizing n with
  | zero =>
    simp only [excessBits, pow_zero, Nat.div_one]
    exact ⟨h, fun h2 => absurd h (by simpa using h2)⟩
  | succ f ih =>
    rw [excessBits]
    by_cases hlt : n < 2 ^ 53
    · rw [if_pos hlt]
      simp only [pow_zero, Nat.div_one]
      exact ⟨hlt, fun h2 => absurd hlt (Nat.not_lt.mpr h2)⟩
    · rw [if_neg hlt]
      have hhalf : n / 2 < 2 ^ (53 + f) := by
        have : 2 ^ (53 + (f + 1)) = 2 * 2 ^ (53 + f) := by ring
        rw [this] at h
        omega
      have hdiv : n / 2 ^ (excessBits f (n / 2) + 1) = n / 2 / 2 ^ excessBits f (n / 2) := by
        rw [pow_succ, mul_comm, Nat.div_div_eq_div_mul]
      rw [hdiv]
      obtain ⟨h1, h2⟩ := ih (n / 2) hhalf
      refine ⟨h1, fun _ => ⟨?_, by omega⟩⟩
      by_cases hs : n / 2 < 2 ^ 53
      · rw [excessBits_small f (n / 2) hs]
        simp only [pow_zero, Nat.div_one]
        have : 2 ^ 53 ≤ n := Nat.not_lt.mp hlt
        omega
      · exact (h2 (Nat.not_lt.mp hs)).1

theorem lt_two_pow_add (n : Nat) : n < 2 ^ (53 + n) :=
  lt_of_lt_of_le (Nat.lt_two_pow n) (Nat.pow_le_pow_right (by norm_num) (by omega))

/-- A number from `2^53` on rounds to `2^53` or more, and to `2^53` only if it
is `2^53` or `2^53 + 1`. -/
theorem roundDouble_large {n : Nat} (h : 2 ^ 53 ≤ n) :
    2 ^ 53 ≤ roundDouble n ∧ (roundDouble n = 2 ^ 53 → n ≤ 2 ^ 53 + 1) := by
  obtain ⟨h1, h2⟩ := excessBits_spec n n (lt_two_pow_add n)
  obtain ⟨hq, hsh⟩ := h2 h
  rw [roundDouble, if_neg (Nat.not_lt.mpr h)]
  simp only
  generalize excessBits n n = sh at *
  have hpow : 2 ≤ 2 ^ sh := by
    calc 2 = 2 ^ 1 := by norm_num
      _ ≤ 2 ^ sh := Nat.pow_le_pow_right (by norm_num) hsh
  have hmod := Nat.div_add_mod n (2 ^ sh)
  have hr : n % 2 ^ sh < 2 ^ sh := Nat.mod_lt _ (by positivity)
  generalize n / 2 ^ sh = q at *
  generalize n % 2 ^ sh = r at *
  have hq1 : q ≤ (if 2 ^ (sh - 1) < r ∨ r = 2 ^ (sh - 1) ∧ q % 2 = 1 then q + 1 else q) := by
    split_ifs <;> omega
  generalize (if 2 ^ (sh - 1) < r ∨ r = 2 ^ (sh - 1) ∧ q % 2 = 1 then q + 1 else q) = q1 at *
  have hge : 2 ^ 53 ≤ q1 * 2 ^ sh := by
    calc 2 ^ 53 = 2 ^ 52 * 2 := by norm_num
      _ ≤ q1 * 2 ^ sh := Nat.mul_le_mul (le_trans hq hq1) hpow
  refine ⟨hge, fun heq => ?_⟩
  -- q1 * 2^sh = 2^53 with q1 ≥ 2^52 and 2^sh ≥ 2 forces 2^sh = 2 and q = 2^52
  have hsh2 : 2 ^ sh ≤ 2 := by
    by_contra hc
    have h3 : 3 ≤ 2 ^ sh := by omega
    have : 2 ^ 52 * 3 ≤ q1 * 2 ^ sh := Nat.mul_le_mul (le_trans hq hq1) h3
    omega
  have hsh' : 2 ^ sh = 2 := le_antisymm hsh2 hpow
  rw [hsh'] at heq hmod hr
  omega

/-- Printing beyond `2^53`: `2^63` prints with its shortest digits, `10^21` in
exponent form, which `parseInt` reads back as `1`. -/
theorem numberToString_examples :
    numberToString 21007 = "21007" ∧
    numberToString (-42) = "-42" ∧
    numberToString 9007199254740992 = "9007199254740992" ∧
    numberToString 9007199254740994 = "9007199254740994" ∧
    numberToString 9223372036854775808 = "9223372036854776000" ∧
    numberToString (-9223372036854775808) = "-9223372036854776000" ∧
    numberToString 18446744073709551616 = "18446744073709552000" ∧
    numberToString 999999999999999868928 = "999999999999999900000" ∧
    numberToString 1000000000000000000000 = "1e+21" ∧
    numberToString 1180591620717411303424 = "1.1805916207174113e+21" ∧
    numberToString 9007199254740993 = "9007199254740992" ∧
    parseInt10 (numberToString 1000000000000000000000) = .fin 1 := by
  refine ⟨?_, ?_, ?_, ?_, ?_, ?_, ?_, ?_, ?_, ?_, ?_, ?_⟩ <;> decide

theorem shortestCandidate_round {x j m : Nat} (h : shortestCandidate x j = some m) :
    roundDouble m = x := by
  unfold shortestCandidate at h
  simp only at h
  split_ifs at h with h1 h2 h3 h4 h5 h6 <;> simp only [Option.some.injEq] at h <;> subst h <;>
    assumption

theorem shortestFrom_round (x j : Nat) :
    shortestFrom x j = x ∨ roundDouble (shortestFrom x j) = x := by
  induction j with
  | zero => exact Or.inl rfl
  | succ j ih =>
    rw [shortestFrom]
    cases hc : shortestCandidate x (j + 1) with
    | none => exact ih
    | some m => exact Or.inr (shortestCandidate_round hc)

theorem shortestDecimal_eq_small {x k : Nat} (hk : k < 2 ^ 53) (h : shortestDecimal x = k) :
    x = k := by
  rcases shortestFrom_round x (numDigits x - 1) with h1 | h1
  · rw [← h1]; exact h
  · have h2 : shortestFrom x (numDigits x - 1) = k := h
    rw [h2, roundDouble, if_pos hk] at h1
    exact h1.symm

theorem exponentForm_cases (m : Nat) :
    exponentForm m = natDecimal m ∨ 'e' ∈ (exponentForm m).data := by
  unfold exponentForm
  split
  · exact Or.inl rfl
  · exact Or.inr (by simp)
  · exact Or.inr (by simp)

theorem roundDouble_eq_small {x k : Nat} (hk : k < 2 ^ 53) (h : roundDouble x = k) : x = k := by
  by_cases hx : x < 2 ^ 53
  · rw [roundDouble, if_pos hx] at h
    exact h
  · have := (roundDouble_large (Nat.not_lt.mp hx)).1
    omega

theorem printNat_eq_natDecimal {x k : Nat} (hk : k < 2 ^ 53) (h : printNat x = natDecimal k) :
    x = k := by
  unfold printNat at h
  have hplain : natDecimal (shortestDecimal (roundDouble x)) = natDecimal k → x = k := fun e =>
    roundDouble_eq_small hk (shortestDecimal_eq_small hk (natDecimal_injective e))
  split_ifs at h with hinf hd
  · exfalso
    have he : 'I' ∈ (natDecimal k).data := by rw [← h]; decide
    have := natDecimal_isDigit k _ he
    revert this
    decide
  · exact hplain h
  · rcases exponentForm_cases (shortestDecimal (roundDouble x)) with he | he
    · exact hplain (he ▸ h)
    · exfalso
      rw [h] at he
      have := natDecimal_isDigit k _ he
      revert this
      decide

theorem numberToString_eq_natDecimal {n : Int} {k : Nat} (hk : k < 2 ^ 53)
    (h : numberToString n = natDecimal k) : n = (k : Int) := by
  cases n with
  | ofNat m =>
    simp only [numberToString] at h
    rw [printNat_eq_natDecimal hk h]
    rfl
  | negSucc m =>
    exfalso
    simp only [numberToString] at h
    have hd := congrArg String.data h
    rw [String.data_append] at hd
    have hmem : '-' ∈ (natDecimal k).data := by rw [← hd]; simp
    have := natDecimal_isDigit k _ hmem
    revert this
    decide

theorem lookup_responses_none (s : JSNum)
    (h : ∀ code ∈ [21000, 21002, 21003, 21004, 21005, 21006, 21007, 21008], s ≠ .fin code) :
    responses.lookup s.toJSString = none := by
  have key : ∀ k : Nat, k < 2 ^ 53 → s ≠ .fin (k : Int) → s.toJSString ≠ natDecimal k := by
    intro k hlt hk heq
    cases s with
    | nan =>
      have hmem : 'N' ∈ (natDecimal k).data := by rw [← heq]; decide
      have := natDecimal_isDigit k _ hmem
      revert this; decide
    | inf neg =>
      have hmem : 'y' ∈ (natDecimal k).data := by
        rw [← heq]; cases neg <;> decide
      have := natDecimal_isDigit k _ hmem
      revert this; decide
    | fin n => exact hk (by rw [numberToString_eq_natDecimal hlt heq])
  have e0 := key 21000 (by norm_num) (h 21000 (by simp))
  have e2 := key 21002 (by norm_num) (h 21002 (by simp))
  have e3 := key 21003 (by norm_num) (h 21003 (by simp))
  have e4 := key 21004 (by norm_num) (h 21004 (by simp))
  have e5 := key 21005 (by norm_num) (h 21005 (by simp))
  have e6 := key 21006 (by norm_num) (h 21006 (by simp))
  have e7 := key 21007 (by norm_num) (h 21007 (by simp))
  have e8 := key 21008 (by norm_num) (h 21008 (by simp))
  have b0 : (s.toJSString == "21000") = false := beq_eq_false_iff_ne.mpr e0
  have b2 : (s.toJSString == "21002") = false := beq_eq_false_iff_ne.mpr e2
  have b3 : (s.toJSString == "21003") = false := beq_eq_false_iff_ne.mpr e3
  have b4 : (s.toJSString == "21004") = false := beq_eq_false_iff_ne.mpr e4
  have b5 : (s.toJSString == "21005") = false := beq_eq_false_iff_ne.mpr e5
  have b6 : (s.toJSString == "21006") = false := beq_eq_false_iff_ne.mpr e6
  have b7 : (s.toJSString == "21007") = false := beq_eq_false_iff_ne.mpr e7
  have b8 : (s.toJSString == "21008") = false := beq_eq_false_iff_ne.mpr e8
  simp only [responses, List.lookup, b0, b2, b3, b4, b5, b6, b7, b8]


theorem parseResult_status (JSONparse : String → Option JSON) (body : String) (result : JSON)
    (v : Option JSON) (s : JSNum)
    (hparse : JSONparse body = some result) (hget : getProp result "status" = .ok v)
    (hint : parseIntOf v = .ok s) (hs : s ≠ .fin 0) :
    parseResult JSONparse body = .error (statusError s) := by
  simp only [parseResult, hparse, hget, hint, bind, Except.bind, pure, Except.pure]
  simp [hs, throw, throwThe, MonadExceptOf.throw]

theorem isDigit_toNat {c : Char} (h : c.isDigit = true) : 48 ≤ c.toNat ∧ c.toNat ≤ 57 := by
  simp only [Char.isDigit, Bool.and_eq_true, decide_eq_true_eq] at h
  exact ⟨h.1, h.2⟩

theorem not_whitespace_of_isDigit {c : Char} (h : c.isDigit = true) : isJSWhitespace c = false := by
  have := isDigit_toNat h
  simp only [isJSWhitespace, Bool.or_eq_false_iff, decide_eq_false_iff_not, Bool.and_eq_false_iff,
    List.mem_cons, List.mem_singleton, List.not_mem_nil, or_false]
  constructor
  · omega
  · left; omega

theorem takeWhile_all {α : Type} (p : α → Bool) (l : List α) (h : ∀ x ∈ l, p x = true) :
    l.takeWhile p = l := by
  induction l with
  | nil => rfl
  | cons a l ih =>
    simp only [List.takeWhile, h a (List.mem_cons_self a l)]
    rw [ih (fun x hx => h x (List.mem_cons_of_mem a hx))]

theorem toNumber_exact (neg : Bool) (n : Nat) (h : n ≤ 2 ^ 53) :
    toNumber neg n = .fin (if neg then -(n : Int) else (n : Int)) := by
  rcases Nat.lt_or_ge n (2 ^ 53) with hlt | hge
  · have hr : roundDouble n = n := by rw [roundDouble, if_pos hlt]
    rw [toNumber, hr, excessBits_small n n hlt]
    rfl
  · have hn : n = 2 ^ 53 := Nat.le_antisymm h hge
    subst hn
    cases neg <;> decide


theorem splitSign_digit (c : Char) (r : List Char) (h : c.isDigit = true) :
    splitSign (c :: r) = (false, c :: r) := by
  have hd := isDigit_toNat h
  have h1 : c ≠ '-' := by
    intro hc; rw [hc] at hd; exact absurd hd (by decide)
  have h2 : c ≠ '+' := by
    intro hc; rw [hc] at hd; exact absurd hd (by decide)
  unfold splitSign
  split
  · rename_i heq
    simp only [List.cons.injEq] at heq
    exact absurd heq.1 h1
  · rename_i heq
    simp only [List.cons.injEq] at heq
    exact absurd heq.1 h2
  · rfl

theorem parseInt10_digits (ds : List Char) (hne : ds ≠ []) (hd : ∀ c ∈ ds, c.isDigit = true)
    (hv : digitsVal ds ≤ 2 ^ 53) : parseInt10 (String.mk ds) = .fin (digitsVal ds) := by
  cases ds with
  | nil => exact absurd rfl hne
  | cons c r =>
    have hc := hd c (List.mem_cons_self c r)
    have hw : (c :: r).dropWhile isJSWhitespace = c :: r := by
      simp [List.dropWhile, not_whitespace_of_isDigit hc]
    simp only [parseInt10, hw, splitSign_digit c r hc, takeWhile_all _ _ hd]
    rw [toNumber_exact false _ hv]
    simp

theorem parseInt10_neg_digits (ds : List Char) (hne : ds ≠ []) (hd : ∀ c ∈ ds, c.isDigit = true)
    (hv : digitsVal ds ≤ 2 ^ 53) :
    parseInt10 (String.mk ('-' :: ds)) = .fin (-(digitsVal ds : Int)) := by
  have hw : ('-' :: ds).dropWhile isJSWhitespace = '-' :: ds := by
    have : isJSWhitespace '-' = false := by decide
    simp [List.dropWhile, this]
  have hs : splitSign ('-' :: ds) = (true, ds) := rfl
  simp only [parseInt10, hw, hs, takeWhile_all _ _ hd]
  rw [toNumber_exact true _ hv]
  cases ds with
  | nil => exact absurd rfl hne
  | cons c r => simp

theorem parseInt10_intDecimal (n : Int) (h : n.natAbs ≤ 2 ^ 53) :
    parseInt10 (intDecimal n) = .fin n := by
  cases n with
  | ofNat m =>
    have hm : m ≤ 2 ^ 53 := by simpa using h
    have := parseInt10_digits (natDecimal m).data (natDecimal_ne_nil m) (natDecimal_isDigit m)
      (by rw [digitsVal_natDecimal]; exact hm)
    rw [digitsVal_natDecimal] at this
    simpa [intDecimal] using this
  | negSucc m =>
    have hm : m + 1 ≤ 2 ^ 53 := by simpa using h
    have := parseInt10_neg_digits (natDecimal (m + 1)).data (natDecimal_ne_nil _)
      (natDecimal_isDigit _) (by rw [digitsVal_natDecimal]; exact hm)
    rw [digitsVal_natDecimal] at this
    have hstr : intDecimal (Int.negSucc m) = String.mk ('-' :: (natDecimal (m + 1)).data) := by
      simp only [intDecimal]
      apply String.ext
      rw [String.data_append]
      rfl
    rw [hstr, this]
    rfl


theorem getProp_of_getOwn {x : JSON} {key : String} {v : JSON} (h : getOwn? x key = some v) :
    getProp x key = .ok (some v) := by
  cases x <;> simp_all [getProp, getOwn?]

theorem compareTransactions_ok {a b : JSON} {ka kb : Int}
    (ha : HasTransactionId a ka) (hb : HasTransactionId b kb) :
    compareTransactions a b = .ok (ka - kb) := by
  obtain ⟨sa, ha1, ha2⟩ := ha
  obtain ⟨sb, hb1, hb2⟩ := hb
  simp [compareTransactions, getProp_of_getOwn ha1, getProp_of_getOwn hb1, parseIntOf, toJSString,
    ha2, hb2, subSign, bind, Except.bind, pure, Except.pure]

theorem sortInsert_ok (k : JSON → Int) (a : JSON) (l : List JSON)
    (ha : HasTransactionId a (k a)) (hl : ∀ x ∈ l, HasTransactionId x (k x)) :
    sortInsert compareTransactions a l = .ok (l.orderedInsert (fun x y => k x ≤ k y) a) := by
  induction l with
  | nil => rfl
  | cons b rest ih =>
    have hb := hl b (List.mem_cons_self b rest)
    have hrest : ∀ x ∈ rest, HasTransactionId x (k x) :=
      fun x hx => hl x (List.mem_cons_of_mem b hx)
    simp only [sortInsert, compareTransactions_ok ha hb, List.orderedInsert, ih hrest]
    by_cases hle : k a ≤ k b
    · have : k a - k b ≤ 0 := by omega
      simp [this, hle]
    · have : ¬ (k a - k b ≤ 0) := by omega
      simp [this, hle]

theorem jsSort_ok (k : JSON → Int) (l : List JSON) (hl : ∀ x ∈ l, HasTransactionId x (k x)) :
    jsSort compareTransactions l = .ok (l.insertionSort (fun x y => k x ≤ k y)) := by
  induction l with
  | nil => rfl
  | cons a rest ih =>
    have ha := hl a (List.mem_cons_self a rest)
    have hrest : ∀ x ∈ rest, HasTransactionId x (k x) :=
      fun x hx => hl x (List.mem_cons_of_mem a hx)
    simp only [jsSort, ih hrest, List.insertionSort]
    apply sortInsert_ok k a _ ha
    intro x hx
    exact hrest x ((List.perm_insertionSort _ rest).mem_iff.mp hx)

theorem sorted_getLast_max (k : JSON → Int) (l : List JSON)
    (hs : l.Sorted (fun x y => k x ≤ k y)) (last : JSON) (hlast : l.getLast? = some last) :
    ∀ x ∈ l, k x ≤ k last := by
  induction l with
  | nil => intro x hx; cases hx
  | cons a rest ih =>
    intro x hx
    cases rest with
    | nil =>
      simp only [List.getLast?_singleton, Option.some.injEq] at hlast
      simp only [List.mem_singleton] at hx
      subst hx; subst hlast; exact le_refl _
    | cons b rest2 =>
      have hlast2 : (b :: rest2).getLast? = some last := by
        simpa [List.getLast?_cons_cons] using hlast
      have hs2 := List.Sorted.of_cons hs
      rcases List.mem_cons.mp hx with rfl | hx
      · have hmem : last ∈ b :: rest2 := List.mem_of_getLast?_eq_some hlast2
        exact List.rel_of_sorted_cons hs last hmem
      · exact ih hs2 hlast2 x hx

theorem isObj_of_transaction_id {x v : JSON} (h : getOwn? x "transaction_id" = some v) :
    ∃ kvs, x = .obj kvs := by
  have hc : canonicalIndex "transaction_id" = none := by decide
  cases x with
  | obj kvs => exact ⟨kvs, rfl⟩
  | arr xs =>
    have hne : ¬ ("transaction_id" = "length") := by decide
    simp [getOwn?, hc, hne] at h
  | str s =>
    have hne : ¬ ("transaction_id" = "length") := by decide
    simp [getOwn?, hc, hne] at h
  | null => simp [getOwn?] at h
  | bool b => simp [getOwn?] at h
  | num n => simp [getOwn?] at h

theorem parseResult_latest (JSONparse : String → Option JSON) (body : String)
    (kvs : List (String × JSON)) (receipt p0 t0 : JSON) (rest sorted : List JSON) (first : JSON)
    (lkvs : List (String × JSON))
    (hparse : JSONparse body = some (.obj kvs))
    (hshadow : lookupKey kvs "hasOwnProperty" = none)
    (hstatus : parseIntOf (lookupKey kvs "status") = .ok (.fin 0))
    (hreceipt : lookupKey kvs "receipt" = some receipt)
    (hp : getReceiptFieldValue receipt "product_id" = .ok p0)
    (ht : getReceiptFieldValue receipt "transaction_id" = .ok t0)
    (hinfo : lookupKey kvs "latest_receipt_info" = some (.arr (first :: rest)))
    (htruthy : truthy first = true)
    (hsort : jsSort compareTransactions (first :: rest) = .ok sorted)
    (hlast : sorted.getLast? = some (.obj lkvs)) :
    parseResult JSONparse body = .ok
      { receipt := receipt, latestReceiptInfo := some sorted,
        productId := lookupKey lkvs "product_id",
        transactionId := lookupKey lkvs "transaction_id" } := by
  have h0 : canonicalIndex "0" = some 0 := by decide
  have hne : ¬ ("0" = "length") := by decide
  simp only [parseResult, hparse, getProp, getOwn?, hstatus, hreceipt, hp, ht, hasOwnProperty,
    hshadow, hinfo, bind, Except.bind, pure, Except.pure, Option.isSome_some, Option.getD_some]
  simp [truthy?, htruthy, hsort, hlast, h0, hne]

theorem getProp_error {v : JSON} {k : String} {e : JSError} (h : getProp v k = .error e) :
    e = .typeError := by
  cases v <;> simp [getProp] at h
  exact h.symm

theorem hasOwnProperty_error {v : JSON} {k : String} {e : JSError}
    (h : hasOwnProperty v k = .error e) : e = .typeError := by
  cases v <;> simp only [hasOwnProperty] at h
  · injection h with h; exact h.symm
  all_goals first
    | (split at h <;> first | (injection h with h; exact h.symm) | cases h)
    | cases h

theorem getReceiptFieldValue_error {receipt : JSON} {field : String} {e : JSError}
    (h : getReceiptFieldValue receipt field = .error e) : e = .typeError := by
  unfold getReceiptFieldValue at h
  simp only [bind, Except.bind, pure, Except.pure] at h
  repeat' split at h
  all_goals first
    | (cases h; done)
    | (cases h
       first
         | exact hasOwnProperty_error (by assumption)
         | exact getProp_error (by assumption))

theorem joinStep_error {first rest : Except JSError String} {b : Bool} {e : JSError}
    (h : joinStep first b rest = .error e) : first = .error e ∨ rest = .error e := by
  unfold joinStep at h
  split at h
  · left; exact h
  · split at h
    · cases h
    · split at h
      · cases h
      · right; exact h

mutual
theorem toJSString_error : ∀ (v : JSON) (e : JSError), toJSString v = .error e → e = .typeError
  | .null, e, h => by simp [toJSString] at h
  | .bool b, e, h => by simp [toJSString] at h
  | .num n, e, h => by simp [toJSString] at h
  | .str s, e, h => by simp [toJSString] at h
  | .arr xs, e, h => by
    rw [toJSString] at h
    exact joinElems_error xs e h
  | .obj kvs, e, h => by
    rw [toJSString] at h
    split at h
    · injection h with h; exact h.symm
    · cases h
theorem joinElems_error : ∀ (xs : List JSON) (e : JSError), joinElems xs = .error e → e = .typeError
  | [], e, h => by simp [joinElems] at h
  | x :: rest, e, h => by
    rw [joinElems] at h
    rcases joinStep_error h with h1 | h1
    · cases x with
      | null => cases h1
      | bool b => exact toJSString_error _ e h1
      | num n => exact toJSString_error _ e h1
      | str s => exact toJSString_error _ e h1
      | arr ys => exact toJSString_error _ e h1
      | obj kvs => exact toJSString_error _ e h1
    · exact joinElems_error rest e h1
end

theorem parseIntOf_error {v : Option JSON} {e : JSError} (h : parseIntOf v = .error e) :
    e = .typeError := by
  cases v with
  | none => cases h
  | some x =>
    simp only [parseIntOf] at h
    split at h
    · cases h
    · rename_i e1 heq
      cases h
      exact toJSString_error _ _ heq

theorem compareTransactions_error {a b : JSON} {e : JSError}
    (h : compareTransactions a b = .error e) : e = .typeError := by
  unfold compareTransactions at h
  simp only [bind, Except.bind, pure, Except.pure] at h
  repeat' split at h
  all_goals first
    | (cases h; done)
    | (cases h
       first
         | exact parseIntOf_error (by assumption)
         | exact getProp_error (by assumption))

theorem sortInsert_error {a : JSON} {l : List JSON} {e : JSError}
    (h : sortInsert compareTransactions a l = .error e) : e = .typeError := by
  induction l with
  | nil => cases h
  | cons b rest ih =>
    simp only [sortInsert] at h
    split at h
    · cases h
      exact compareTransactions_error (by assumption)
    · split at h
      · cases h
      · split at h
        · rename_i e1 heq
          cases h
          exact ih heq
        · cases h

theorem jsSort_error {l : List JSON} {e : JSError}
    (h : jsSort compareTransactions l = .error e) : e = .typeError := by
  induction l with
  | nil => cases h
  | cons a rest ih =>
    simp only [jsSort] at h
    split at h
    · rename_i e1 heq
      cases h
      exact ih heq
    · exact sortInsert_error h

theorem parseResult_error_cases {JSONparse : String → Option JSON} {body : String} {e : JSError}
    (h : parseResult JSONparse body = .error e) :
    e = .syntaxError ∨ e = .typeError ∨
      ∃ result v s, JSONparse body = some result ∧ getProp result "status" = .ok v ∧
        parseIntOf v = .ok s ∧ s ≠ .fin 0 ∧ e = statusError s := by
  unfold parseResult at h
  simp only [bind, Except.bind, pure, Except.pure, throw, throwThe, MonadExceptOf.throw] at h
  repeat' split at h
  all_goals first
    | (cases h; done)
    | (cases h; left; rfl)
    | (cases h; right; left; rfl)
    | (cases h; right; left
       first
         | exact parseIntOf_error (by assumption)
         | exact getProp_error (by assumption)
         | exact hasOwnProperty_error (by assumption)
         | exact getReceiptFieldValue_error (by assumption)
         | exact jsSort_error (by assumption))
    | (cases h; right; right
       exact ⟨_, _, _, by assumption, by assumption, by assumption, by assumption, rfl⟩)

theorem statusError_status (s : JSNum) : (statusError s).status = some s := rfl

theorem verify_log (JSONparse : String → Option JSON) (post : String → RequestBody → PostResult)
    (url : String) (json : RequestBody) (log : List Request) :
    (verify JSONparse post url json log).2 = log ++ [(url, json)] := by
  unfold verify
  simp only
  split
  · rfl
  · split
    · rfl
    · split <;> rfl

theorem verify_completion (JSONparse : String → Option JSON)
    (post : String → RequestBody → PostResult)
    (url : String) (json : RequestBody) (log : List Request) :
    (verify JSONparse post url json log).1 = (verify JSONparse post url json []).1 := by
  unfold verify
  simp only
  split
  · rfl
  · split
    · rfl
    · split <;> rfl

theorem verify_error_result (JSONparse : String → Option JSON)
    (post : String → RequestBody → PostResult)
    (url : String) (json : RequestBody) (log : List Request) (e : JSError)
    (h : (verify JSONparse post url json log).1.error = some e) :
    ∀ r, (verify JSONparse post url json log).1.result ≠ .parsed r := by
  intro r hr
  cases hpost : post url json with
  | failure d => simp [verify, hpost] at hr
  | response code text =>
    by_cases hcode : code = 200
    · subst hcode
      cases hparse : parseResult JSONparse text with
      | error e1 => simp [verify, hpost, hparse] at hr
      | ok p => simp [verify, hpost, hparse] at h
    · simp [verify, hpost, hcode] at hr

theorem verify_status_iff (JSONparse : String → Option JSON)
    (post : String → RequestBody → PostResult)
    (url : String) (json : RequestBody) (log : List Request) (s : JSNum) :
    (verify JSONparse post url json log).1.error.bind JSError.status = some s ↔
      AnswersStatus JSONparse post url json s := by
  constructor
  · intro h
    cases hpost : post url json with
    | failure d => simp [verify, hpost, JSError.status] at h
    | response code text =>
      by_cases hcode : code = 200
      · subst hcode
        cases hparse : parseResult JSONparse text with
        | ok p => simp [verify, hpost, hparse] at h
        | error e =>
          simp only [verify, hpost, hparse, ne_eq, not_true_eq_false, if_false,
            Option.bind_some] at h
          rcases parseResult_error_cases hparse with h1 | h1 | ⟨result, v, s1, hp, hg, hi, hs, h1⟩
          · subst h1; simp [JSError.status] at h
          · subst h1; simp [JSError.status] at h
          · subst h1
            have h2 : some s1 = some s := h
            cases h2
            exact ⟨text, result, v, hpost, hp, hg, hi, hs⟩
      · simp [verify, hpost, hcode, JSError.status] at h
  · rintro ⟨text, result, v, hpost, hp, hg, hi, hs⟩
    simp [verify, hpost, parseResult_status JSONparse text result v s hp hg hi hs,
      statusError, JSError.status]

theorem verify_answersStatus (JSONparse : String → Option JSON)
    (post : String → RequestBody → PostResult)
    (url : String) (json : RequestBody) (log : List Request) (s : JSNum)
    (h : AnswersStatus JSONparse post url json s) :
    (verify JSONparse post url json log).1 =
      { error := some (statusError s), result := .empty } := by
  obtain ⟨text, result, v, hpost, hp, hg, hi, hs⟩ := h
  unfold verify
  simp only [hpost, parseResult_status JSONparse text result v s hp hg hi hs]
  rfl

theorem checkReceipt_called (payment : Payment) (c : Completion) (environment : String)
    (err : Option JSError) (res : Option Result)
    (h : checkReceipt payment c environment = .called err res) :
    ∃ r, res = some r ∧ r.environment = environment := by
  unfold checkReceipt at h
  simp only at h
  split at h
  · cases h; exact ⟨_, rfl, rfl⟩
  · split at h
    · cases h
    · split at h
      · cases h
      · cases h; exact ⟨_, rfl, rfl⟩
      · cases h; exact ⟨_, rfl, rfl⟩

theorem checkReceipt_error (payment : Payment) (c : Completion) (environment : String)
    (e : JSError) (h : c.error = some e) (hres : ∀ r, c.result ≠ .parsed r) :
    checkReceipt payment c environment =
      .called (some e) (some { parsed := none, environment := environment }) := by
  cases hc : c.result with
  | undefined => simp only [checkReceipt, h, hc]
  | empty => simp only [checkReceipt, h, hc]
  | parsed r => exact absurd hc (hres r)

theorem checkReceipt_success (payment : Payment) (r : ParsedResult) (environment : String)
    (x : Option JSError) (h : reconcile payment r.receipt = .ok x) :
    checkReceipt payment { error := none, result := .parsed r } environment =
      .called x (some { parsed := some r, environment := environment }) := by
  cases x with
  | none => simp only [checkReceipt, h]
  | some e => simp only [checkReceipt, h]

theorem verifyPayment_valid (JSONparse : String → Option JSON)
    (post : String → RequestBody → PostResult) (payment : Payment) (receipt : String)
    (password : Option String)
    (hr : payment.receipt = some (.str receipt))
    (hs : payment.secret = password.map JSON.str) :
    verifyPayment JSONparse post payment =
      verifyAcrossEnvironments JSONparse post payment
        { receiptData := receiptData receipt, password := password } := by
  unfold verifyPayment
  cases password with
  | none => simp only [Option.map_none'] at hs; simp only [hr, hs]
  | some s => simp only [Option.map_some'] at hs; simp only [hr, hs]

theorem verifyAcrossEnvironments_retry (JSONparse : String → Option JSON)
    (post : String → RequestBody → PostResult) (payment : Payment) (json : RequestBody)
    (h : AnswersStatus JSONparse post apiUrls.production json (.fin 21007)) :
    verifyAcrossEnvironments JSONparse post payment json =
      { requests := [(apiUrls.production, json), (apiUrls.sandbox, json)],
        outcome := checkReceipt payment (verify JSONparse post apiUrls.sandbox json []).1
          "sandbox" } := by
  have h1 := (verify_status_iff JSONparse post apiUrls.production json [] (.fin 21007)).mpr h
  unfold verifyAcrossEnvironments
  simp only [h1, if_true, verify_log, List.nil_append, List.singleton_append]
  rw [verify_completion]

theorem verifyAcrossEnvironments_single (JSONparse : String → Option JSON)
    (post : String → RequestBody → PostResult) (payment : Payment) (json : RequestBody)
    (h : ¬ AnswersStatus JSONparse post apiUrls.production json (.fin 21007)) :
    verifyAcrossEnvironments JSONparse post payment json =
      { requests := [(apiUrls.production, json)],
        outcome := checkReceipt payment (verify JSONparse post apiUrls.production json []).1
          "production" } := by
  have h1 : ¬ ((verify JSONparse post apiUrls.production json []).1.error.bind JSError.status =
      some (.fin 21007)) :=
    fun hh => h ((verify_status_iff JSONparse post apiUrls.production json [] (.fin 21007)).mp hh)
  unfold verifyAcrossEnvironments
  simp only [h1, if_false, verify_log, List.nil_append]

theorem verifyPayment_requests_cases (JSONparse : String → Option JSON)
    (post : String → RequestBody → PostResult) (payment : Payment) :
    (verifyPayment JSONparse post payment).requests = [] ∨
    (∃ json, (verifyPayment JSONparse post payment).requests = [(apiUrls.production, json)] ∧
      ∃ c, (verifyPayment JSONparse post payment).outcome = checkReceipt payment c "production") ∨
    (∃ json, (verifyPayment JSONparse post payment).requests =
        [(apiUrls.production, json), (apiUrls.sandbox, json)] ∧
      ∃ c, (verifyPayment JSONparse post payment).outcome = checkReceipt payment c "sandbox") := by
  have key : ∀ json,
      (verifyAcrossEnvironments JSONparse post payment json).requests = [] ∨
      (∃ j, (verifyAcrossEnvironments JSONparse post payment json).requests =
          [(apiUrls.production, j)] ∧
        ∃ c, (verifyAcrossEnvironments JSONparse post payment json).outcome =
          checkReceipt payment c "production") ∨
      (∃ j, (verifyAcrossEnvironments JSONparse post payment json).requests =
          [(apiUrls.production, j), (apiUrls.sandbox, j)] ∧
        ∃ c, (verifyAcrossEnvironments JSONparse post payment json).outcome =
          checkReceipt payment c "sandbox") := by
    intro json
    by_cases h : AnswersStatus JSONparse post apiUrls.production json (.fin 21007)
    · rw [verifyAcrossEnvironments_retry JSONparse post payment json h]
      exact Or.inr (Or.inr ⟨json, rfl, _, rfl⟩)
    · rw [verifyAcrossEnvironments_single JSONparse post payment json h]
      exact Or.inr (Or.inl ⟨json, rfl, _, rfl⟩)
  unfold verifyPayment
  split
  · split
    · exact key _
    · exact key _
    · exact Or.inl rfl
  · exact Or.inl rfl

theorem verifyPayment_first_request (JSONparse : String → Option JSON)
    (post : String → RequestBody → PostResult) (payment : Payment) (receipt : String)
    (password : Option String)
    (hr : payment.receipt = some (.str receipt))
    (hs : payment.secret = password.map JSON.str) :
    (verifyPayment JSONparse post payment).requests.head? =
      some (apiUrls.production, { receiptData := receiptData receipt, password := password }) := by
  rw [verifyPayment_valid JSONparse post payment receipt password hr hs]
  by_cases h : AnswersStatus JSONparse post apiUrls.production
      { receiptData := receiptData receipt, password := password } (.fin 21007)
  · rw [verifyAcrossEnvironments_retry JSONparse post payment _ h]; rfl
  · rw [verifyAcrossEnvironments_single JSONparse post payment _ h]; rfl

theorem strictNotEqual_iff (n : String) (v : JSON) : strictNotEqual n v = true ↔ v ≠ .str n := by
  cases v <;> simp [strictNotEqual]
  rename_i s
  constructor
  · intro h heq; exact h heq.symm
  · intro h heq; exact h heq.symm

theorem resolveBundleId_eq (receipt bid resolved : JSON)
    (hbid : getReceiptFieldValue receipt "bid" = .ok bid)
    (hres : (bid ≠ .null ∧ resolved = bid) ∨
      (bid = .null ∧ getReceiptFieldValue receipt "bundle_id" = .ok resolved)) :
    resolveBundleId receipt = .ok resolved := by
  unfold resolveBundleId
  simp only [hbid, bind, Except.bind, pure, Except.pure]
  rcases hres with ⟨h1, h2⟩ | ⟨h1, h2⟩
  · subst h2
    cases resolved <;> first | exact absurd rfl h1 | rfl
  · subst h1
    exact h2

theorem reconcile_bundle (payment : Payment) (receipt : JSON) (hash : Hash) (resolved : JSON)
    (hhash : getReceiptFieldValueHash receipt "product_id" = .ok hash)
    (hprod : ∀ p, payment.productId = some p → hash.lookupTruthy p = true)
    (hres : resolveBundleId receipt = .ok resolved) :
    reconcile payment receipt =
      match payment.packageName with
      | none => .ok none
      | some n =>
        if strictNotEqual n resolved then
          match toJSString resolved with
          | .ok shown =>
            .ok (some (.error ("Wrong bundle ID: " ++ n ++ " (expected: " ++ shown ++ ")") none))
          | .error e => .error e
        else .ok none := by
  unfold reconcile
  simp only [hhash, hres, bind, Except.bind, pure, Except.pure]
  cases hp : payment.productId with
  | none =>
    cases hn : payment.packageName with
    | none => rfl
    | some n =>
      by_cases hne : strictNotEqual n resolved = true
      · simp only [hne, if_true]
        cases toJSString resolved <;> rfl
      · simp only [hne]
        rfl
  | some p =>
    have := hprod p hp
    simp only [this, Bool.not_true]
    cases hn : payment.packageName with
    | none => rfl
    | some n =>
      by_cases hne : strictNotEqual n resolved = true
      · simp only [hne, if_true]
        cases toJSString resolved <;> rfl
      · simp only [hne]
        rfl

theorem isBase64Char_iff (c : Char) : isBase64Char c = true ↔ IsBase64ClassChar c := by
  simp only [isBase64Char, Char.isAlphanum, Char.isAlpha, Char.isUpper, Char.isLower,
    Char.isDigit, Bool.or_eq_true, Bool.and_eq_true, decide_eq_true_eq, beq_iff_eq,
    IsBase64ClassChar]
  constructor
  · rintro ((((⟨h1, h2⟩ | ⟨h1, h2⟩) | ⟨h1, h2⟩) | h) | h)
    · exact Or.inl ⟨h1, h2⟩
    · exact Or.inr (Or.inl ⟨h1, h2⟩)
    · exact Or.inr (Or.inr (Or.inl ⟨h1, h2⟩))
    · exact Or.inr (Or.inr (Or.inr (Or.inl h)))
    · exact Or.inr (Or.inr (Or.inr (Or.inr h)))
  · rintro (⟨h1, h2⟩ | ⟨h1, h2⟩ | ⟨h1, h2⟩ | h | h)
    · exact Or.inl (Or.inl (Or.inl (Or.inl ⟨h1, h2⟩)))
    · exact Or.inl (Or.inl (Or.inl (Or.inr ⟨h1, h2⟩)))
    · exact Or.inl (Or.inl (Or.inr ⟨h1, h2⟩))
    · exact Or.inl (Or.inr h)
    · exact Or.inr h

theorem isBase64Char_eq_sign : isBase64Char '=' = false := by decide

theorem isBase64like_iff (s : String) : isBase64like s = true ↔ LooksLikeBase64 s := by
  constructor
  · intro h
    simp only [isBase64like, Bool.and_eq_true, Bool.not_eq_true', Bool.or_eq_true,
      beq_iff_eq] at h
    refine ⟨s.data.takeWhile isBase64Char, s.data.dropWhile isBase64Char,
      (List.takeWhile_append_dropWhile _ _).symm, ?_, ?_, ?_⟩
    · intro hnil
      rw [hnil] at h
      simp at h
    · intro c hc
      exact (isBase64Char_iff c).mp (List.mem_takeWhile_imp hc)
    · rcases h.2 with (h1 | h1) | h1
      · exact Or.inl h1
      · exact Or.inr (Or.inl h1)
      · exact Or.inr (Or.inr h1)
  · rintro ⟨body, pad, hs, hne, hbody, hpad⟩
    have hall : ∀ c ∈ body, isBase64Char c = true := fun c hc => (isBase64Char_iff c).mpr (hbody c hc)
    have htake : s.data.takeWhile isBase64Char = body := by
      rw [hs, List.takeWhile_append_of_pos hall]
      rcases hpad with h | h | h <;> subst h <;> simp [List.takeWhile, isBase64Char_eq_sign]
    have hdrop : s.data.dropWhile isBase64Char = pad := by
      rw [hs, List.dropWhile_append_of_pos hall]
      rcases hpad with h | h | h <;> subst h <;> simp [List.dropWhile, isBase64Char_eq_sign]
    simp only [isBase64like, htake, hdrop, Bool.and_eq_true, Bool.not_eq_true', Bool.or_eq_true,
      beq_iff_eq]
    refine ⟨?_, ?_⟩
    · cases body with
      | nil => exact absurd rfl hne
      | cons a l => rfl
    · rcases hpad with h | h | h
      · exact Or.inl (Or.inl h)
      · exact Or.inl (Or.inr h)
      · exact Or.inr h

theorem base64Digit_class (n : Nat) : isBase64Char (base64Digit n) = true := by
  have hall : ∀ c ∈ base64Alphabet, isBase64Char c = true := by decide
  unfold base64Digit
  rw [List.getD_eq_getElem?_getD]
  cases h : base64Alphabet[n]? with
  | none => decide
  | some c => exact hall c (List.getElem?_mem h)

theorem base64Encode_length_le (bs : List Nat) : bs.length ≤ (base64Encode bs).length := by
  induction bs using base64Encode.induct with
  | case1 => simp [base64Encode]
  | case2 a => simp [base64Encode]
  | case3 a b => simp [base64Encode]
  | case4 a b c rest ih =>
    simp only [base64Encode, List.length_cons]
    omega

theorem base64Encode_length_lt (bs : List Nat) (h : bs ≠ []) :
    bs.length < (base64Encode bs).length := by
  cases bs with
  | nil => exact absurd rfl h
  | cons a r1 =>
    cases r1 with
    | nil => simp [base64Encode]
    | cons b r2 =>
      cases r2 with
      | nil => simp [base64Encode]
      | cons c rest =>
        have := base64Encode_length_le rest
        simp only [base64Encode, List.length_cons]
        omega

/-- The output of the encoder on a non-empty input: class characters, then at
most two `=`. -/
theorem base64Encode_shape (bs : List Nat) (h : bs ≠ []) :
    ∃ body pad, base64Encode bs = body ++ pad ∧ body ≠ [] ∧
      (∀ c ∈ body, isBase64Char c = true) ∧ (pad = [] ∨ pad = ['='] ∨ pad = ['=', '=']) := by
  induction bs using base64Encode.induct with
  | case1 => exact absurd rfl h
  | case2 a =>
    refine ⟨[base64Digit (a / 4), base64Digit (a % 4 * 16)], ['=', '='], rfl, by simp, ?_,
      Or.inr (Or.inr rfl)⟩
    intro c hc
    simp only [List.mem_cons, List.mem_singleton, List.not_mem_nil, or_false] at hc
    rcases hc with rfl | rfl <;> exact base64Digit_class _
  | case3 a b =>
    refine ⟨[base64Digit (a / 4), base64Digit (a % 4 * 16 + b / 16), base64Digit (b % 16 * 4)],
      ['='], rfl, by simp, ?_, Or.inr (Or.inl rfl)⟩
    intro c hc
    simp only [List.mem_cons, List.mem_singleton, List.not_mem_nil, or_false] at hc
    rcases hc with rfl | rfl | rfl <;> exact base64Digit_class _
  | case4 a b c rest ih =>
    have hfour : ∀ x ∈ [base64Digit (a / 4), base64Digit (a % 4 * 16 + b / 16),
        base64Digit (b % 16 * 4 + c / 64), base64Digit (c % 64)], isBase64Char x = true := by
      intro x hx
      simp only [List.mem_cons, List.mem_singleton, List.not_mem_nil, or_false] at hx
      rcases hx with rfl | rfl | rfl | rfl <;> exact base64Digit_class _
    by_cases hrest : rest = []
    · subst hrest
      exact ⟨_, [], by simp [base64Encode], by simp, hfour, Or.inl rfl⟩
    · obtain ⟨body, pad, heq, hne, hbody, hpad⟩ := ih hrest
      refine ⟨[base64Digit (a / 4), base64Digit (a % 4 * 16 + b / 16),
        base64Digit (b % 16 * 4 + c / 64), base64Digit (c % 64)] ++ body, pad, ?_, by simp, ?_,
        hpad⟩
      · simp [base64Encode, heq]
      · intro x hx
        rcases List.mem_append.mp hx with hx | hx
        · exact hfour x hx
        · exact hbody x hx

theorem utf8Bytes_ne_nil (c : Char) : utf8Bytes c ≠ [] := by
  unfold utf8Bytes
  simp only
  split
  · simp
  · split
    · simp
    · split <;> simp

theorem flatMap_utf8Bytes_length (cs : List Char) : cs.length ≤ (cs.flatMap utf8Bytes).length := by
  induction cs with
  | nil => simp
  | cons c rest ih =>
    have h1 : 1 ≤ (utf8Bytes c).length := by
      cases h : utf8Bytes c with
      | nil => exact absurd h (utf8Bytes_ne_nil c)
      | cons a l => simp
    simp only [List.flatMap_cons, List.length_append, List.length_cons]
    omega

theorem flatMap_utf8Bytes_ne_nil (cs : List Char) (h : cs ≠ []) : cs.flatMap utf8Bytes ≠ [] := by
  intro hnil
  have := flatMap_utf8Bytes_length cs
  rw [hnil] at this
  cases cs with
  | nil => exact h rfl
  | cons c rest => simp at this

theorem data_ne_nil_of_ne_empty (s : String) (h : s ≠ "") : s.data ≠ [] := by
  intro hnil
  apply h
  apply String.ext
  rw [hnil]

theorem bufferBase64_empty : bufferBase64 "" = "" := by decide

theorem bufferBase64_ne_self (s : String) (h : s ≠ "") : bufferBase64 s ≠ s := by
  intro heq
  have hdata := data_ne_nil_of_ne_empty s h
  have h1 := flatMap_utf8Bytes_length s.data
  have h2 := base64Encode_length_lt _ (flatMap_utf8Bytes_ne_nil s.data hdata)
  have h3 : (bufferBase64 s).data.length = s.data.length := by rw [heq]
  simp only [bufferBase64] at h3
  omega

theorem bufferBase64_like (s : String) (h : s ≠ "") : isBase64like (bufferBase64 s) = true := by
  obtain ⟨body, pad, heq, hne, hbody, hpad⟩ :=
    base64Encode_shape _ (flatMap_utf8Bytes_ne_nil s.data (data_ne_nil_of_ne_empty s h))
  rw [isBase64like_iff]
  exact ⟨body, pad, heq, hne, fun c hc => (isBase64Char_iff c).mp (hbody c hc), hpad⟩

theorem receiptData_eq_self_iff (s : String) :
    receiptData s = s ↔ LooksLikeBase64 s ∨ s = "" := by
  unfold receiptData
  by_cases hlike : isBase64like s = true
  · simp only [hlike, if_true, true_iff]
    exact Or.inl ((isBase64like_iff s).mp hlike)
  · simp only [hlike]
    constructor
    · intro h
      by_cases hs : s = ""
      · exact Or.inr hs
      · exact absurd h (bufferBase64_ne_self s hs)
    · rintro (h | h)
      · exact absurd ((isBase64like_iff s).mpr h) hlike
      · subst h; decide

theorem verifyPayment_bodies (JSONparse : String → Option JSON)
    (post : String → RequestBody → PostResult) (payment : Payment) (receipt : String)
    (password : Option String)
    (hr : payment.receipt = some (.str receipt))
    (hs : payment.secret = password.map JSON.str) :
    (verifyPayment JSONparse post payment).requests ≠ [] ∧
    ∀ req ∈ (verifyPayment JSONparse post payment).requests,
      req.2 = { receiptData := receiptData receipt, password := password } := by
  rw [verifyPayment_valid JSONparse post payment receipt password hr hs]
  by_cases h : AnswersStatus JSONparse post apiUrls.production
      { receiptData := receiptData receipt, password := password } (.fin 21007)
  · rw [verifyAcrossEnvironments_retry JSONparse post payment _ h]
    refine ⟨by simp, ?_⟩
    intro req hreq
    simp only [List.mem_cons, List.mem_singleton, List.not_mem_nil, or_false] at hreq
    rcases hreq with rfl | rfl <;> rfl
  · rw [verifyAcrossEnvironments_single JSONparse post payment _ h]
    refine ⟨by simp, ?_⟩
    intro req hreq
    simp only [List.mem_singleton] at hreq
    subst hreq
    rfl

theorem verifyPayment_cases (JSONparse : String → Option JSON)
    (post : String → RequestBody → PostResult) (payment : Payment) :
    verifyPayment JSONparse post payment =
        { requests := [], outcome := .called (some (.assertion "Receipt must be a string")) none } ∨
    verifyPayment JSONparse post payment =
        { requests := [], outcome := .thrown (.assertion "Shared secret must be a string") } ∨
    (∃ json, ¬ AnswersStatus JSONparse post apiUrls.production json (.fin 21007) ∧
      verifyPayment JSONparse post payment =
        { requests := [(apiUrls.production, json)],
          outcome := checkReceipt payment (verify JSONparse post apiUrls.production json []).1
            "production" }) ∨
    (∃ json, AnswersStatus JSONparse post apiUrls.production json (.fin 21007) ∧
      verifyPayment JSONparse post payment =
        { requests := [(apiUrls.production, json), (apiUrls.sandbox, json)],
          outcome := checkReceipt payment (verify JSONparse post apiUrls.sandbox json []).1
            "sandbox" }) := by
  have key : ∀ json,
      (∃ j, ¬ AnswersStatus JSONparse post apiUrls.production j (.fin 21007) ∧
        verifyAcrossEnvironments JSONparse post payment json =
          { requests := [(apiUrls.production, j)],
            outcome := checkReceipt payment (verify JSONparse post apiUrls.production j []).1
              "production" }) ∨
      (∃ j, AnswersStatus JSONparse post apiUrls.production j (.fin 21007) ∧
        verifyAcrossEnvironments JSONparse post payment json =
          { requests := [(apiUrls.production, j), (apiUrls.sandbox, j)],
            outcome := checkReceipt payment (verify JSONparse post apiUrls.sandbox j []).1
              "sandbox" }) := by
    intro json
    by_cases h : AnswersStatus JSONparse post apiUrls.production json (.fin 21007)
    · exact Or.inr ⟨json, h, verifyAcrossEnvironments_retry JSONparse post payment json h⟩
    · exact Or.inl ⟨json, h, verifyAcrossEnvironments_single JSONparse post payment json h⟩
  unfold verifyPayment
  split
  · split
    · exact Or.inr (Or.inr (key _))
    · exact Or.inr (Or.inr (key _))
    · exact Or.inr (Or.inl rfl)
  · exact Or.inl rfl

theorem checkReceipt_called_none (payment : Payment) (c : Completion) (environment : String)
    (res : Option Result) (h : checkReceipt payment c environment = .called none res) :
    ∃ r, c.error = none ∧ c.result = .parsed r ∧ reconcile payment r.receipt = .ok none ∧
      res = some { parsed := some r, environment := environment } := by
  obtain ⟨err, result⟩ := c
  cases err with
  | some e =>
    simp only [checkReceipt] at h
    injection h with h1 _
    cases h1
  | none =>
    cases result with
    | undefined => simp [checkReceipt] at h
    | empty => simp [checkReceipt] at h
    | parsed r =>
      simp only [checkReceipt] at h
      split at h
      · cases h
      · injection h with h1 _
        cases h1
      · rename_i hrec
        injection h with _ h2
        exact ⟨r, rfl, rfl, hrec, h2.symm⟩

theorem verify_parsed (JSONparse : String → Option JSON)
    (post : String → RequestBody → PostResult)
    (url : String) (json : RequestBody) (log : List Request) (r : ParsedResult)
    (h : (verify JSONparse post url json log).1.result = .parsed r) :
    ∃ text, post url json = .response 200 text ∧ parseResult JSONparse text = .ok r := by
  cases hpost : post url json with
  | failure d => simp [verify, hpost] at h
  | response code text =>
    by_cases hcode : code = 200
    · subst hcode
      cases hparse : parseResult JSONparse text with
      | error e => simp [verify, hpost, hparse] at h
      | ok p =>
        simp only [verify, hpost, hparse, ne_eq, not_true_eq_false, if_false,
          ResultArg.parsed.injEq] at h
        subst h
        exact ⟨text, rfl, hparse⟩
    · simp [verify, hpost, hcode] at h

theorem answersStatus_unique (JSONparse : String → Option JSON)
    (post : String → RequestBody → PostResult) (url : String) (json : RequestBody)
    (s t : JSNum) (hs : AnswersStatus JSONparse post url json s)
    (ht : AnswersStatus JSONparse post url json t) : s = t := by
  have h1 := (verify_status_iff JSONparse post url json [] s).mpr hs
  have h2 := (verify_status_iff JSONparse post url json [] t).mpr ht
  rw [h1] at h2
  exact Option.some.inj h2

theorem reconcile_inherited (payment : Payment) (receipt : JSON) (p : String)
    (hp : p ∈ objectPrototypeKeys) (hpay : payment.productId = some p) :
    reconcile payment receipt = reconcile { payment with productId := none } receipt := by
  have hl : ∀ h : Hash, h.lookupTruthy p = true := by
    intro h
    simp only [Hash.lookupTruthy, Bool.or_eq_true, decide_eq_true_eq]
    exact Or.inr hp
  unfold reconcile
  simp only [hpay, hl, Bool.not_true]
  rfl

theorem checkReceipt_congr (payment payment2 : Payment) (c : Completion) (environment : String)
    (h : ∀ receipt, reconcile payment receipt = reconcile payment2 receipt) :
    checkReceipt payment c environment = checkReceipt payment2 c environment := by
  unfold checkReceipt
  simp only [h]

theorem shortestCandidate_mem {x j m : Nat} (h : shortestCandidate x j = some m) :
    m = x / 10 ^ j * 10 ^ j ∨ m = x / 10 ^ j * 10 ^ j + 10 ^ j := by
  unfold shortestCandidate at h
  simp only at h
  split_ifs at h <;> simp only [Option.some.injEq] at h <;> subst h <;> simp

theorem shortestCandidate_small {x j m : Nat} (hx : x ≤ 2 ^ 53)
    (h : shortestCandidate x (j + 1) = some m) : m = x := by
  have hround := shortestCandidate_round h
  have hp : 0 < 10 ^ (j + 1) := by positivity
  have hlo : x / 10 ^ (j + 1) * 10 ^ (j + 1) ≤ x := Nat.div_mul_le_self _ _
  have hhi : x < x / 10 ^ (j + 1) * 10 ^ (j + 1) + 10 ^ (j + 1) := by
    have := Nat.div_add_mod x (10 ^ (j + 1))
    have := Nat.mod_lt x hp
    rw [mul_comm]
    omega
  by_cases hm : m < 2 ^ 53
  · rw [roundDouble, if_pos hm] at hround
    exact hround
  · have hm' : 2 ^ 53 ≤ m := Nat.not_lt.mp hm
    obtain ⟨h1, h2⟩ := roundDouble_large hm'
    rw [hround] at h1 h2
    have hx' : x = 2 ^ 53 := le_antisymm hx h1
    have hle := h2 hx'
    rcases shortestCandidate_mem h with hc | hc
    · omega
    · -- m is a multiple of ten above 2^53, so not 2^53 + 1
      have hdvd : 10 ∣ m := by
        rw [hc, pow_succ]
        exact Dvd.dvd.add (Dvd.dvd.mul_left (Dvd.intro_left _ rfl) _) (Dvd.intro_left _ rfl)
      omega

theorem shortestFrom_small {x : Nat} (hx : x ≤ 2 ^ 53) (j : Nat) : shortestFrom x j = x := by
  induction j with
  | zero => rfl
  | succ j ih =>
    rw [shortestFrom]
    cases hc : shortestCandidate x (j + 1) with
    | none => exact ih
    | some m => exact shortestCandidate_small hx hc

theorem revDigits_length (fuel k n : Nat) (h : n < 10 ^ (k + 1)) :
    (revDigits fuel n).length ≤ k + 1 := by
  induction fuel generalizing k n with
  | zero => simp [revDigits]
  | succ f ih =>
    rw [revDigits]
    split_ifs with h10
    · simp
    · cases k with
      | zero => simp at h; omega
      | succ k =>
        simp only [List.length_cons, add_le_add_iff_right]
        apply ih
        rw [pow_succ] at h
        omega

theorem roundDouble_small {x : Nat} (hx : x ≤ 2 ^ 53) : roundDouble x = x := by
  rcases Nat.lt_or_ge x (2 ^ 53) with h | h
  · rw [roundDouble, if_pos h]
  · have : x = 2 ^ 53 := le_antisymm hx h
    subst this
    decide

/-- Up to `2^53` a number prints as its decimal numeral. -/
theorem printNat_small {x : Nat} (hx : x ≤ 2 ^ 53) : printNat x = natDecimal x := by
  have hr : roundDouble x = x := roundDouble_small hx
  have hs : shortestDecimal x = x := shortestFrom_small hx _
  have hd : numDigits x ≤ 21 := by
    have : x < 10 ^ (20 + 1) := lt_of_le_of_lt hx (by norm_num)
    exact revDigits_length _ 20 x this
  have hfin : ¬ 972 ≤ excessBits x x := by
    rcases Nat.lt_or_ge x (2 ^ 53) with h | h
    · rw [excessBits_small x x h]; omega
    · have : x = 2 ^ 53 := le_antisymm hx h
      subst this
      decide
  rw [printNat, hr, if_neg hfin, hs, if_pos hd]

/-- Up to `2^53` in absolute value a number prints as its decimal numeral. -/
theorem numberToString_small (n : Int) (h : n.natAbs ≤ 2 ^ 53) :
    numberToString n = intDecimal n := by
  cases n with
  | ofNat m => exact printNat_small h
  | negSucc m =>
    have hm : m + 1 ≤ 2 ^ 53 := h
    simp only [numberToString, intDecimal, printNat_small hm]

/-- The digits printed for a double read back as that double. -/
theorem shortestDecimal_reads_back {x : Nat} (hx : roundDouble x = x) :
    roundDouble (shortestDecimal x) = x := by
  rcases shortestFrom_round x (numDigits x - 1) with h | h
  · rw [shortestDecimal, h, hx]
  · exact h

/-- A numeric bundle identifier beyond `2^53` is named in the message as the
engine prints it. -/
theorem checkReceipt_numeric_bundle_example :
    checkReceipt (examplePayment none (some "com.app"))
        { error := none,
          result := .parsed { receipt := .obj [("bid", .num 9223372036854775808)],
                              latestReceiptInfo := none, productId := none,
                              transactionId := none } } "production" =
      .called
        (some (.error "Wrong bundle ID: com.app (expected: 9223372036854776000)" none))
        (some { parsed := some { receipt := .obj [("bid", .num 9223372036854775808)],
                                 latestReceiptInfo := none, productId := none,
                                 transactionId := none },
                environment := "production" }) := by
  rfl

/-! ## C1: product reconciliation -/

/-- C1, at the failing input: the verified receipt lists the products
`com.app.pro` and `com.app.basic`, and the payment claims the product
`constructor`. The claimed identifier is not a member of the value set, yet the
lookup `productIdHash[payment.productId]` finds the inherited property of that
name, the product check passes and the callback is called without an error. -/
theorem C1_inherited_name_passes_product_check :
    getReceiptFieldValueHash
        (.obj [("bundle_id", .str "com.app"),
          ("in_app", .arr [.obj [("product_id", .str "com.app.pro")],
                           .obj [("product_id", .str "com.app.basic")]])]) "product_id" =
      .ok ["com.app.pro", "com.app.basic"] ∧
    "constructor" ∉ ["com.app.pro", "com.app.basic"] ∧
    ∃ r, (verifyPayment exampleParse exampleProductionPost
        (examplePayment (some "constructor") none)).outcome = .called none (some r) :=
  ⟨rfl, by decide, _, rfl⟩

/-! ## C2: receipt payload encoding -/

/-- C2 fails as stated: the payload `hello` consists of characters of the
base64 class only, so it is classified as base64-like and the request carries
`hello`, not `aGVsbG8=`. -/
theorem C2_counterexample :
    isBase64like "hello" = true ∧ receiptData "hello" = "hello" ∧
    receiptData "hello" ≠ "aGVsbG8=" ∧
    (verifyPayment exampleParse exampleProductionPost
      { receipt := some (.str "hello"), secret := none, productId := none,
        packageName := none }).requests =
      [(apiUrls.production, { receiptData := "hello", password := none })] :=
  ⟨by decide, by decide, by decide, by decide⟩

/-- C2 (amended). The payloads `hello` and `aGVsbG8=` are both classified as
base64-like and are transmitted unmodified; the payload `hello!`, which holds a
character outside the class, is not base64-like and is base64-encoded before
transmission: the request's `receipt-data` is `aGVsbG8h`. -/
theorem C2_receipt_payload_encoding (JSONparse : String → Option JSON)
    (post : String → RequestBody → PostResult) (productId packageName : Option String) :
    isBase64like "hello" = true ∧ isBase64like "aGVsbG8=" = true ∧
    isBase64like "hello!" = false ∧
    (verifyPayment JSONparse post
      { receipt := some (.str "hello"), secret := none, productId := productId,
        packageName := packageName }).requests.head? =
      some (apiUrls.production, { receiptData := "hello", password := none }) ∧
    (verifyPayment JSONparse post
      { receipt := some (.str "aGVsbG8="), secret := none, productId := productId,
        packageName := packageName }).requests.head? =
      some (apiUrls.production, { receiptData := "aGVsbG8=", password := none }) ∧
    (verifyPayment JSONparse post
      { receipt := some (.str "hello!"), secret := none, productId := productId,
        packageName := packageName }).requests.head? =
      some (apiUrls.production, { receiptData := "aGVsbG8h", password := none }) :=
  ⟨by decide, by decide, by decide,
   verifyPayment_first_request JSONparse post _ "hello" none rfl rfl,
   verifyPayment_first_request JSONparse post _ "aGVsbG8=" none rfl rfl,
   verifyPayment_first_request JSONparse post _ "hello!" none rfl rfl⟩

/-! ## C3: latest-transaction selection -/

/-- C3 (amended). For every response object with status 0 that does not shadow
`hasOwnProperty`, whose receipt the field extractor reads without failing, and
whose `latest_receipt_info` is a list `ys` of transactions, a permutation of
`xs`, whose `transaction_id` strings are the decimal forms of pairwise distinct
integers `k x` of absolute value at most `2^53`: `parseResult` succeeds, and
the returned `productId` and `transactionId` are the `product_id` and
`transaction_id` of the transaction `m` with the maximum identifier, whatever
the order of `ys` and whatever the receipt itself carries. -/
theorem C3_latest_transaction_selected (JSONparse : String → Option JSON) (body : String)
    (kvs : List (String × JSON)) (receipt p0 t0 : JSON) (xs ys : List JSON) (k : JSON → Int)
    (m : JSON)
    (hparse : JSONparse body = some (.obj kvs))
    (hshadow : lookupKey kvs "hasOwnProperty" = none)
    (hstatus : parseIntOf (lookupKey kvs "status") = .ok (.fin 0))
    (hreceipt : lookupKey kvs "receipt" = some receipt)
    (hp : getReceiptFieldValue receipt "product_id" = .ok p0)
    (ht : getReceiptFieldValue receipt "transaction_id" = .ok t0)
    (hinfo : lookupKey kvs "latest_receipt_info" = some (.arr ys))
    (hperm : ys.Perm xs)
    (hk : ∀ x ∈ xs, getOwn? x "transaction_id" = some (.str (intDecimal (k x))) ∧
      (k x).natAbs ≤ 2 ^ 53)
    (hinj : ∀ x ∈ xs, ∀ y ∈ xs, k x = k y → x = y)
    (hm : m ∈ xs) (hmax : ∀ x ∈ xs, k x ≤ k m) :
    ∃ r, parseResult JSONparse body = .ok r ∧
      r.productId = getOwn? m "product_id" ∧
      r.transactionId = getOwn? m "transaction_id" := by
  have hid : ∀ y ∈ ys, HasTransactionId y (k y) := by
    intro y hy
    obtain ⟨h1, h2⟩ := hk y (hperm.mem_iff.mp hy)
    exact ⟨_, h1, parseInt10_intDecimal _ h2⟩
  have hsort := jsSort_ok k ys hid
  haveI : IsTotal JSON (fun x y => k x ≤ k y) := ⟨fun a b => le_total (k a) (k b)⟩
  haveI : IsTrans JSON (fun x y => k x ≤ k y) := ⟨fun a b c hab hbc => le_trans hab hbc⟩
  have hsorted := List.sorted_insertionSort (fun x y => k x ≤ k y) ys
  have hp2 := List.perm_insertionSort (fun x y => k x ≤ k y) ys
  have hmS : m ∈ ys.insertionSort (fun x y => k x ≤ k y) :=
    hp2.mem_iff.mpr (hperm.mem_iff.mpr hm)
  obtain ⟨last, hlast⟩ : ∃ last, (ys.insertionSort (fun x y => k x ≤ k y)).getLast? = some last := by
    cases hl : ys.insertionSort (fun x y => k x ≤ k y) with
    | nil => rw [hl] at hmS; cases hmS
    | cons a l => exact ⟨_, List.getLast?_eq_getLast _ (List.cons_ne_nil a l)⟩
  have hlastS := List.mem_of_getLast?_eq_some hlast
  have hlastX : last ∈ xs := hperm.mem_iff.mp (hp2.mem_iff.mp hlastS)
  have hle := sorted_getLast_max k _ hsorted last hlast m hmS
  have heq : last = m := hinj last hlastX m hm (le_antisymm (hmax last hlastX) hle)
  obtain ⟨lkvs, hobj⟩ := isObj_of_transaction_id (hk last hlastX).1
  cases ys with
  | nil => cases hperm.mem_iff.mpr hm
  | cons first rest =>
    obtain ⟨fkvs, hfobj⟩ := isObj_of_transaction_id
      (hk first (hperm.mem_iff.mp (List.mem_cons_self first rest))).1
    have htruthy : truthy first = true := by rw [hfobj]; rfl
    rw [hobj] at hlast
    refine ⟨_, parseResult_latest JSONparse body kvs receipt p0 t0 rest _ first lkvs hparse hshadow
      hstatus hreceipt hp ht hinfo htruthy hsort hlast, ?_, ?_⟩
    · rw [← heq, hobj]; rfl
    · rw [← heq, hobj]; rfl


/-- Witness of C3: of the transactions `9` and `10`, listed in either order,
the transaction `10` is selected. -/
theorem C3_latest_transaction_selected_witness :
    ∃ r, parseResult
        (fun _ => some (exampleRenewalResponse
          [exampleTransaction "10" "a", exampleTransaction "9" "b"])) "" = .ok r ∧
      r.productId = some (.str "a") ∧ r.transactionId = some (.str "10") :=
  C3_latest_transaction_selected
    (fun _ => some (exampleRenewalResponse
      [exampleTransaction "10" "a", exampleTransaction "9" "b"])) ""
    _ (.obj [("product_id", .str "original"), ("transaction_id", .str "1")])
    (.str "original") (.str "1")
    [exampleTransaction "9" "b", exampleTransaction "10" "a"]
    [exampleTransaction "10" "a", exampleTransaction "9" "b"]
    exampleKey (exampleTransaction "10" "a")
    rfl rfl rfl rfl rfl rfl rfl (List.Perm.swap _ _ _)
    (by
      intro x hx
      simp only [List.mem_cons, List.mem_singleton, List.not_mem_nil, or_false] at hx
      rcases hx with rfl | rfl
      · exact ⟨rfl, by decide⟩
      · exact ⟨rfl, by decide⟩)
    (by
      intro x hx y hy
      simp only [List.mem_cons, List.mem_singleton, List.not_mem_nil, or_false] at hx hy
      rcases hx with rfl | rfl <;> rcases hy with rfl | rfl <;> intro h
      · rfl
      · exact absurd h (by decide)
      · exact absurd h (by decide)
      · rfl)
    (by simp)
    (by
      intro x hx
      simp only [List.mem_cons, List.mem_singleton, List.not_mem_nil, or_false] at hx
      rcases hx with rfl | rfl <;> decide)

/-- C3 fails as stated: the identifiers 9007199254740993 and 9007199254740992
are distinct integers, `parseInt` reads both as `2^53`, the comparator returns
0 and the sort keeps the order of the input. Listed with the larger identifier
first, the transaction with the smaller identifier is selected; listed the
other way round, the other one is. -/
theorem C3_counterexample :
    (9007199254740992 : Int) < 9007199254740993 ∧
    (∃ r, parseResult
        (fun _ => some (exampleRenewalResponse
          [exampleTransaction "9007199254740993" "new",
           exampleTransaction "9007199254740992" "old"])) "" = .ok r ∧
      r.productId = some (.str "old") ∧ r.transactionId = some (.str "9007199254740992")) ∧
    (∃ r, parseResult
        (fun _ => some (exampleRenewalResponse
          [exampleTransaction "9007199254740992" "old",
           exampleTransaction "9007199254740993" "new"])) "" = .ok r ∧
      r.productId = some (.str "new") ∧ r.transactionId = some (.str "9007199254740993")) :=
  ⟨by decide, ⟨_, rfl, rfl, rfl⟩, ⟨_, rfl, rfl, rfl⟩⟩

/-! ## C4: status errors of `parseResult` -/

/-- C4. For every response body whose status `s`, as `parseInt` reads it, is
not zero, `parseResult` fails with an error whose `status` is `s`. For each of
the eight codes 21000, 21002, 21003, 21004, 21005, 21006, 21007 and 21008 the
message is the text that the table `responses` holds for it, written out below;
for every other `s` it is `Unknown status code: ` followed by `s` as the engine
prints it, so `Unknown status code: 21001` for 21001 and
`Unknown status code: 9223372036854776000` for `2^63`. -/
theorem C4_status_error (JSONparse : String → Option JSON) (body : String) (result : JSON)
    (v : Option JSON) (s : JSNum)
    (hparse : JSONparse body = some result) (hget : getProp result "status" = .ok v)
    (hint : parseIntOf v = .ok s) (hs : s ≠ .fin 0) :
    ∃ msg, parseResult JSONparse body = .error (.error msg (some s)) ∧
      (s = .fin 21000 →
        msg = "The App Store could not read the JSON object you provided.") ∧
      (s = .fin 21002 →
        msg = "The data in the receipt-data property was malformed or missing.") ∧
      (s = .fin 21003 →
        msg = "The receipt could not be authenticated.") ∧
      (s = .fin 21004 →
        msg = "The shared secret you provided does not match the shared secret on file for your account.") ∧
      (s = .fin 21005 →
        msg = "The receipt server is not currently available.") ∧
      (s = .fin 21006 →
        msg = "This receipt is valid but the subscription has expired. When this status code is returned to your server, the receipt data is also decoded and returned as part of the response.") ∧
      (s = .fin 21007 →
        msg = "This receipt is from the test environment, but it was sent to the production service for verification. Send it to the test environment service instead.") ∧
      (s = .fin 21008 →
        msg = "This receipt is from the production receipt, but it was sent to the test environment service for verification. Send it to the production environment service instead.") ∧
      (∀ code text, (code, text) ∈ responses → s.toJSString = code → msg = text) ∧
      ((∀ code ∈ [21000, 21002, 21003, 21004, 21005, 21006, 21007, 21008], s ≠ .fin code) →
        msg = "Unknown status code: " ++ s.toJSString) ∧
      (s = .fin 21001 → msg = "Unknown status code: 21001") ∧
      (s = .fin 9223372036854775808 → msg = "Unknown status code: 9223372036854776000") ∧
      (s = .nan → msg = "Unknown status code: NaN") := by
  rw [parseResult_status JSONparse body result v s hparse hget hint hs]
  refine ⟨_, rfl, ?_, ?_, ?_, ?_, ?_, ?_, ?_, ?_, ?_, ?_, ?_, ?_, ?_⟩
  · intro h; subst h; rfl
  · intro h; subst h; rfl
  · intro h; subst h; rfl
  · intro h; subst h; rfl
  · intro h; subst h; rfl
  · intro h; subst h; rfl
  · intro h; subst h; rfl
  · intro h; subst h; rfl
  · intro code text hmem hcode
    subst hcode
    simp only [responses, List.mem_cons, Prod.mk.injEq, List.mem_singleton, List.not_mem_nil,
      or_false] at hmem
    rcases hmem with h | h | h | h | h | h | h | h <;>
      (obtain ⟨h1, h2⟩ := h; subst h2; simp [responses, List.lookup, h1])
  · intro h
    simp only [lookup_responses_none s h]
  · intro h; subst h; rfl
  · intro h; subst h; rfl
  · intro h; subst h; rfl

/-- Witness of C4: the body with status 21007. -/
theorem C4_status_error_witness :
    ∃ msg, parseResult (fun _ => some (.obj [("status", .num 21007)])) "" =
        .error (.error msg (some (.fin 21007))) ∧
      (JSNum.fin 21007 = .fin 21000 →
        msg = "The App Store could not read the JSON object you provided.") ∧
      (JSNum.fin 21007 = .fin 21002 →
        msg = "The data in the receipt-data property was malformed or missing.") ∧
      (JSNum.fin 21007 = .fin 21003 →
        msg = "The receipt could not be authenticated.") ∧
      (JSNum.fin 21007 = .fin 21004 →
        msg = "The shared secret you provided does not match the shared secret on file for your account.") ∧
      (JSNum.fin 21007 = .fin 21005 →
        msg = "The receipt server is not currently available.") ∧
      (JSNum.fin 21007 = .fin 21006 →
        msg = "This receipt is valid but the subscription has expired. When this status code is returned to your server, the receipt data is also decoded and returned as part of the response.") ∧
      (JSNum.fin 21007 = .fin 21007 →
        msg = "This receipt is from the test environment, but it was sent to the production service for verification. Send it to the test environment service instead.") ∧
      (JSNum.fin 21007 = .fin 21008 →
        msg = "This receipt is from the production receipt, but it was sent to the test environment service for verification. Send it to the production environment service instead.") ∧
      (∀ code text, (code, text) ∈ responses → (JSNum.fin 21007).toJSString = code → msg = text) ∧
      ((∀ code ∈ [21000, 21002, 21003, 21004, 21005, 21006, 21007, 21008],
          JSNum.fin 21007 ≠ .fin code) →
        msg = "Unknown status code: " ++ (JSNum.fin 21007).toJSString) ∧
      (JSNum.fin 21007 = .fin 21001 → msg = "Unknown status code: 21001") ∧
      (JSNum.fin 21007 = .fin 9223372036854775808 →
        msg = "Unknown status code: 9223372036854776000") ∧
      (JSNum.fin 21007 = .nan → msg = "Unknown status code: NaN") :=
  C4_status_error (fun _ => some (.obj [("status", .num 21007)])) ""
    (.obj [("status", .num 21007)]) (some (.num 21007)) (.fin 21007) rfl rfl rfl (by decide)

/-! ## C5: environment fallback -/

/-- C5. With `https.post` a function from the URL and the body to a response:
the first request of `verifyPayment`, if any, goes to the production URL, and
at most two requests are made. For a payment with a string receipt and a valid
secret: if production answers with a status error of code 21007, exactly one
further request is issued, to the sandbox URL with the same body, whatever the
callback receives is tagged `sandbox`, and a status error of sandbox itself
(21007 included) is handed to the callback as it is; in every other case the
production request is the only one and whatever the callback receives is
tagged `production`. -/
theorem C5_environment_fallback (JSONparse : String → Option JSON)
    (post : String → RequestBody → PostResult) (payment : Payment) :
    (∀ req, (verifyPayment JSONparse post payment).requests.head? = some req →
      req.1 = apiUrls.production) ∧
    (verifyPayment JSONparse post payment).requests.length ≤ 2 ∧
    ∀ receipt password, payment.receipt = some (.str receipt) →
      payment.secret = password.map JSON.str →
      (verifyPayment JSONparse post payment).requests.head? =
        some (apiUrls.production, { receiptData := receiptData receipt, password := password }) ∧
      (AnswersStatus JSONparse post apiUrls.production
          { receiptData := receiptData receipt, password := password } (.fin 21007) →
        (verifyPayment JSONparse post payment).requests =
          [(apiUrls.production, { receiptData := receiptData receipt, password := password }),
           (apiUrls.sandbox, { receiptData := receiptData receipt, password := password })] ∧
        (∀ err res, (verifyPayment JSONparse post payment).outcome = .called err res →
          ∃ r, res = some r ∧ r.environment = "sandbox") ∧
        (∀ s, AnswersStatus JSONparse post apiUrls.sandbox
            { receiptData := receiptData receipt, password := password } s →
          (verifyPayment JSONparse post payment).outcome =
            .called (some (statusError s)) (some { parsed := none, environment := "sandbox" }))) ∧
      (¬ AnswersStatus JSONparse post apiUrls.production
          { receiptData := receiptData receipt, password := password } (.fin 21007) →
        (verifyPayment JSONparse post payment).requests =
          [(apiUrls.production, { receiptData := receiptData receipt, password := password })] ∧
        (∀ err res, (verifyPayment JSONparse post payment).outcome = .called err res →
          ∃ r, res = some r ∧ r.environment = "production")) := by
  refine ⟨?_, ?_, ?_⟩
  · intro req hreq
    rcases verifyPayment_requests_cases JSONparse post payment with h | ⟨j, h, _⟩ | ⟨j, h, _⟩ <;>
      rw [h] at hreq <;> simp at hreq
    · rw [← hreq]
    · rw [← hreq]
  · rcases verifyPayment_requests_cases JSONparse post payment with h | ⟨j, h, _⟩ | ⟨j, h, _⟩ <;>
      rw [h] <;> simp
  · intro receipt password hr hs
    rw [verifyPayment_valid JSONparse post payment receipt password hr hs]
    refine ⟨?_, ?_, ?_⟩
    · by_cases h : AnswersStatus JSONparse post apiUrls.production
          { receiptData := receiptData receipt, password := password } (.fin 21007)
      · rw [verifyAcrossEnvironments_retry JSONparse post payment _ h]; rfl
      · rw [verifyAcrossEnvironments_single JSONparse post payment _ h]; rfl
    · intro h
      rw [verifyAcrossEnvironments_retry JSONparse post payment _ h]
      refine ⟨rfl, ?_, ?_⟩
      · intro err res hout
        exact checkReceipt_called payment _ "sandbox" err res hout
      · intro s hsb
        simp only
        rw [verify_answersStatus JSONparse post apiUrls.sandbox _ [] s hsb]
        exact checkReceipt_error payment _ "sandbox" _ rfl (fun r hr => by cases hr)
    · intro h
      rw [verifyAcrossEnvironments_single JSONparse post payment _ h]
      refine ⟨rfl, ?_⟩
      intro err res hout
      exact checkReceipt_called payment _ "production" err res hout

theorem example_answers21007 :
    AnswersStatus exampleParse examplePost apiUrls.production
      { receiptData := receiptData "abc", password := none } (.fin 21007) :=
  ⟨"sandbox receipt", .obj [("status", .num 21007)], some (.num 21007), rfl, rfl, rfl, rfl,
    by decide⟩

/-- Witness of C5: production answers 21007, and the one further request goes
to the sandbox URL, whose answer is tagged `sandbox`. -/
theorem C5_environment_fallback_witness :
    AnswersStatus exampleParse examplePost apiUrls.production
      { receiptData := receiptData "abc", password := none } (.fin 21007) ∧
    (verifyPayment exampleParse examplePost (examplePayment none none)).requests =
      [(apiUrls.production, { receiptData := "abc", password := none }),
       (apiUrls.sandbox, { receiptData := "abc", password := none })] ∧
    (∀ err res,
      (verifyPayment exampleParse examplePost (examplePayment none none)).outcome =
        .called err res → ∃ r, res = some r ∧ r.environment = "sandbox") :=
  ⟨example_answers21007,
   (((C5_environment_fallback exampleParse examplePost (examplePayment none none)).2.2
      "abc" none rfl rfl).2.1 example_answers21007).1,
   (((C5_environment_fallback exampleParse examplePost (examplePayment none none)).2.2
      "abc" none rfl rfl).2.1 example_answers21007).2.1⟩

/-! ## C6: error propagation -/

/-- C6, at the failing input: a payment whose receipt is a string and whose
secret is the number 5. The assertion on the secret stands outside the `try`
block of `verifyPayment`: the `AssertionError` leaves `verifyPayment` as an
exception, no request is issued and the callback is never called. -/
theorem C6_secret_assertion_is_thrown (JSONparse : String → Option JSON)
    (post : String → RequestBody → PostResult) :
    verifyPayment JSONparse post
        { receipt := some (.str "abc"), secret := some (.num 5), productId := none,
          packageName := none } =
      { requests := [], outcome := .thrown (.assertion "Shared secret must be a string") } :=
  rfl

/-! ## C7: environment tag -/

/-- C7. Whenever `verifyPayment` has issued a request and calls the callback,
with an error or without, the result argument is an object whose `environment`
is `production` or `sandbox`. For a payment with a string receipt and a valid
secret, a failure of the verification client is passed on together with a
result object that holds the tag and nothing else: the failure of production
tagged `production` when it is not the status 21007, and otherwise the failure
of sandbox tagged `sandbox`. When the client succeeds and the reconciliation
returns, with a mismatch error or without, the callback is called with the
parsed result tagged with the environment that answered. -/
theorem C7_environment_tag (JSONparse : String → Option JSON)
    (post : String → RequestBody → PostResult) (payment : Payment) :
    ((verifyPayment JSONparse post payment).requests ≠ [] →
      ∀ err res, (verifyPayment JSONparse post payment).outcome = .called err res →
        ∃ r, res = some r ∧ (r.environment = "production" ∨ r.environment = "sandbox")) ∧
    ∀ receipt password e, payment.receipt = some (.str receipt) →
      payment.secret = password.map JSON.str →
      ((verify JSONparse post apiUrls.production
            { receiptData := receiptData receipt, password := password } []).1.error = some e →
        e.status ≠ some (.fin 21007) →
        (verifyPayment JSONparse post payment).outcome =
          .called (some e) (some { parsed := none, environment := "production" })) ∧
      (AnswersStatus JSONparse post apiUrls.production
            { receiptData := receiptData receipt, password := password } (.fin 21007) →
        (verify JSONparse post apiUrls.sandbox
            { receiptData := receiptData receipt, password := password } []).1.error = some e →
        (verifyPayment JSONparse post payment).outcome =
          .called (some e) (some { parsed := none, environment := "sandbox" })) ∧
      (∀ r x, (verify JSONparse post apiUrls.production
            { receiptData := receiptData receipt, password := password } []).1 =
          { error := none, result := .parsed r } →
        reconcile payment r.receipt = .ok x →
        (verifyPayment JSONparse post payment).outcome =
          .called x (some { parsed := some r, environment := "production" })) ∧
      (∀ r x, AnswersStatus JSONparse post apiUrls.production
            { receiptData := receiptData receipt, password := password } (.fin 21007) →
        (verify JSONparse post apiUrls.sandbox
            { receiptData := receiptData receipt, password := password } []).1 =
          { error := none, result := .parsed r } →
        reconcile payment r.receipt = .ok x →
        (verifyPayment JSONparse post payment).outcome =
          .called x (some { parsed := some r, environment := "sandbox" })) := by
  refine ⟨?_, ?_⟩
  · intro hne err res hout
    rcases verifyPayment_requests_cases JSONparse post payment with
      h | ⟨j, _, c, hc⟩ | ⟨j, _, c, hc⟩
    · exact absurd h hne
    · rw [hc] at hout
      obtain ⟨r, hr, henv⟩ := checkReceipt_called payment c "production" err res hout
      exact ⟨r, hr, Or.inl henv⟩
    · rw [hc] at hout
      obtain ⟨r, hr, henv⟩ := checkReceipt_called payment c "sandbox" err res hout
      exact ⟨r, hr, Or.inr henv⟩
  · intro receipt password e hr hs
    rw [verifyPayment_valid JSONparse post payment receipt password hr hs]
    refine ⟨?_, ?_, ?_, ?_⟩
    · intro herr hstatus
      have hno : ¬ AnswersStatus JSONparse post apiUrls.production
          { receiptData := receiptData receipt, password := password } (.fin 21007) := by
        intro hA
        have := (verify_status_iff JSONparse post apiUrls.production _ [] (.fin 21007)).mpr hA
        rw [herr] at this
        exact hstatus this
      rw [verifyAcrossEnvironments_single JSONparse post payment _ hno]
      exact checkReceipt_error payment _ "production" e herr
        (verify_error_result JSONparse post _ _ [] e herr)
    · intro hA herr
      rw [verifyAcrossEnvironments_retry JSONparse post payment _ hA]
      exact checkReceipt_error payment _ "sandbox" e herr
        (verify_error_result JSONparse post _ _ [] e herr)
    · intro r x hok hrec
      have hno : ¬ AnswersStatus JSONparse post apiUrls.production
          { receiptData := receiptData receipt, password := password } (.fin 21007) := by
        intro hA
        have := (verify_status_iff JSONparse post apiUrls.production _ [] (.fin 21007)).mpr hA
        rw [hok] at this
        cases this
      rw [verifyAcrossEnvironments_single JSONparse post payment _ hno]
      simp only [hok]
      exact checkReceipt_success payment r "production" x hrec
    · intro r x hA hok hrec
      rw [verifyAcrossEnvironments_retry JSONparse post payment _ hA]
      simp only [hok]
      exact checkReceipt_success payment r "sandbox" x hrec

/-- Witness of C7: a transport error reaches the callback together with a
result object tagged `production`. -/
theorem C7_environment_tag_witness :
    (verifyPayment exampleParse exampleFailingPost (examplePayment none none)).requests ≠ [] ∧
    (verifyPayment exampleParse exampleFailingPost (examplePayment none none)).outcome =
      .called (some (.transport "ECONNREFUSED"))
        (some { parsed := none, environment := "production" }) ∧
    ∃ r, some ({ parsed := none, environment := "production" } : Result) = some r ∧
      (r.environment = "production" ∨ r.environment = "sandbox") :=
  ⟨by decide,
   ((C7_environment_tag exampleParse exampleFailingPost (examplePayment none none)).2
      "abc" none (.transport "ECONNREFUSED") rfl rfl).1 rfl (by decide),
   (C7_environment_tag exampleParse exampleFailingPost (examplePayment none none)).1
      (by decide) _ _ rfl⟩

/-! ## C8: `getReceiptFieldValue` -/

/-- C8, at the failing input: a receipt object whose `in_app` is `null`. The
receipt has the property `in_app`, reading its element `0` throws a
`TypeError`, and the function fails instead of returning `null`. -/
theorem C8_null_transaction_list_throws :
    getReceiptFieldValue (.obj [("in_app", .null)]) "bid" = .error .typeError :=
  rfl

/-! ## C9: `getReceiptFieldValueHash` -/

/-- C9, at the failing input: a receipt object whose own `product_id` is the
string `__proto__`. The assignment `result[key] = true` with that key creates no own
property, and the resulting key set is empty instead of the singleton. -/
theorem C9_proto_key_is_dropped :
    getReceiptFieldValueHash (.obj [("product_id", .str "__proto__")]) "product_id" = .ok [] ∧
    getReceiptFieldValueHash
      (.obj [("in_app", .arr [.obj [("product_id", .str "__proto__")]])]) "product_id" = .ok [] :=
  ⟨rfl, rfl⟩

/-! ## C10: bundle reconciliation -/

/-- C10 (amended). For every verified result whose receipt yields a value set
that passes the product check and whose receipt the field extractor reads
without failing, for `bid` and, when that yields `null`, for `bundle_id`: let
`resolved` be the value read for `bid` if that is not `null`, else the value
read for `bundle_id`. For every claim with `packageName` `n`, when `resolved`
converts to the string `shown`, the callback receives the error
`Wrong bundle ID: n (expected: shown)` if and only if `resolved` is not the
string `n`, and no error when it is; a claim without `packageName` never fails
the bundle check. -/
theorem C10_bundle_reconciliation (payment : Payment) (r : ParsedResult) (environment : String)
    (hash : Hash) (bid resolved : JSON)
    (hhash : getReceiptFieldValueHash r.receipt "product_id" = .ok hash)
    (hprod : ∀ p, payment.productId = some p → hash.lookupTruthy p = true)
    (hbid : getReceiptFieldValue r.receipt "bid" = .ok bid)
    (hres : (bid ≠ .null ∧ resolved = bid) ∨
      (bid = .null ∧ getReceiptFieldValue r.receipt "bundle_id" = .ok resolved)) :
    (∀ n shown, payment.packageName = some n → toJSString resolved = .ok shown →
      ((checkReceipt payment { error := none, result := .parsed r } environment =
          .called (some (.error ("Wrong bundle ID: " ++ n ++ " (expected: " ++ shown ++ ")") none))
            (some { parsed := some r, environment := environment }))
        ↔ resolved ≠ .str n) ∧
      (resolved = .str n →
        checkReceipt payment { error := none, result := .parsed r } environment =
          .called none (some { parsed := some r, environment := environment }))) ∧
    (payment.packageName = none →
      checkReceipt payment { error := none, result := .parsed r } environment =
        .called none (some { parsed := some r, environment := environment })) := by
  have hrec := reconcile_bundle payment r.receipt hash resolved hhash hprod
    (resolveBundleId_eq r.receipt bid resolved hbid hres)
  refine ⟨?_, ?_⟩
  · intro n shown hn hshown
    rw [hn] at hrec
    simp only [hshown] at hrec
    by_cases hne : resolved = .str n
    · have hfalse : strictNotEqual n resolved = false := by
        cases h : strictNotEqual n resolved with
        | false => rfl
        | true => exact absurd hne ((strictNotEqual_iff n resolved).mp h)
      simp only [hfalse, Bool.false_eq_true, if_false] at hrec
      have hout : checkReceipt payment { error := none, result := .parsed r } environment =
          .called none (some { parsed := some r, environment := environment }) := by
        simp only [checkReceipt, hrec]
      refine ⟨⟨?_, fun h => absurd hne h⟩, fun _ => hout⟩
      intro h
      rw [hout] at h
      injection h with h1 _
      cases h1
    · have htrue : strictNotEqual n resolved = true := (strictNotEqual_iff n resolved).mpr hne
      simp only [htrue, if_true] at hrec
      refine ⟨⟨fun _ => hne, fun _ => ?_⟩, fun h => absurd h hne⟩
      simp only [checkReceipt, hrec]
  · intro hn
    rw [hn] at hrec
    simp only [checkReceipt, hrec]

/-- Witness of C10: the claim `packageName: "com.app"` against a receipt
without `bid` and with `bundle_id` `com.app` succeeds. -/
theorem C10_bundle_reconciliation_witness :
    getReceiptFieldValue exampleReceipt "bid" = .ok .null ∧
    getReceiptFieldValue exampleReceipt "bundle_id" = .ok (.str "com.app") ∧
    checkReceipt (examplePayment none (some "com.app"))
        { error := none,
          result := .parsed { receipt := exampleReceipt, latestReceiptInfo := none,
                              productId := none, transactionId := none } } "production" =
      .called none (some { parsed := some { receipt := exampleReceipt, latestReceiptInfo := none,
                                            productId := none, transactionId := none },
                           environment := "production" }) :=
  ⟨rfl, rfl,
   ((C10_bundle_reconciliation (examplePayment none (some "com.app"))
      { receipt := exampleReceipt, latestReceiptInfo := none, productId := none,
        transactionId := none } "production" ["com.app.pro", "com.app.basic"] .null
      (.str "com.app") rfl (fun p hp => by cases hp) rfl (Or.inr ⟨rfl, rfl⟩)).1
      "com.app" "com.app" rfl rfl).2 rfl⟩

/-- C10 fails as stated: the resolved bundle identifier of this verified
response is an object that shadows `toString`. It differs from the claimed
`packageName`, but building the message of the error throws a `TypeError`
inside the completion handler, and the callback receives nothing. -/
theorem C10_counterexample :
    getReceiptFieldValue (.obj [("bid", .obj [("toString", .num 1)])]) "bid" =
      .ok (.obj [("toString", .num 1)]) ∧
    getReceiptFieldValueHash (.obj [("bid", .obj [("toString", .num 1)])]) "product_id" =
      .ok [] ∧
    (verifyPayment
        (fun _ => some (.obj [("status", .num 0),
          ("receipt", .obj [("bid", .obj [("toString", .num 1)])])]))
        exampleProductionPost (examplePayment none (some "com.app"))).outcome =
      .uncaught .typeError :=
  ⟨rfl, rfl, rfl⟩

/-! ## C11: receipt-data normalisation -/

/-- C11 fails as stated: the empty payload does not consist of one or more
characters of the class, and yet the request carries the payload itself, the
base64 encoding of no bytes being the empty string. -/
theorem C11_counterexample :
    ¬ LooksLikeBase64 "" ∧ receiptData "" = "" ∧
    (verifyPayment exampleParse exampleProductionPost
      { receipt := some (.str ""), secret := none, productId := none,
        packageName := none }).requests =
      [(apiUrls.production, { receiptData := "", password := none })] := by
  refine ⟨?_, by decide, by decide⟩
  rintro ⟨body, pad, hs, hne, _, _⟩
  cases body with
  | nil => exact hne rfl
  | cons c rest => cases hs

/-- C11 (amended). For every string payload `s` (and a valid secret), every
request of `verifyPayment` carries as `receipt-data` the payload itself when
`s` consists of one or more characters of `[A-Za-z0-9/+]` followed by at most
two `=` and nothing else, and the base64 encoding of the UTF-8 bytes of `s` for
every other string; the `receipt-data` equals `s` exactly when `s` has that
form or is empty. The encoder agrees with the test vectors of RFC 4648 and
encodes characters outside ASCII through their UTF-8 bytes. -/
theorem C11_receipt_data_normalisation (JSONparse : String → Option JSON)
    (post : String → RequestBody → PostResult) (payment : Payment) (s : String)
    (password : Option String)
    (hr : payment.receipt = some (.str s))
    (hs : payment.secret = password.map JSON.str) :
    (verifyPayment JSONparse post payment).requests ≠ [] ∧
    (∀ req ∈ (verifyPayment JSONparse post payment).requests,
      (LooksLikeBase64 s → req.2.receiptData = s) ∧
      (¬ LooksLikeBase64 s → req.2.receiptData = bufferBase64 s) ∧
      (req.2.receiptData = s ↔ LooksLikeBase64 s ∨ s = "")) ∧
    bufferBase64 "" = "" ∧ bufferBase64 "f" = "Zg==" ∧ bufferBase64 "fo" = "Zm8=" ∧
    bufferBase64 "foo" = "Zm9v" ∧ bufferBase64 "foob" = "Zm9vYg==" ∧
    bufferBase64 "fooba" = "Zm9vYmE=" ∧ bufferBase64 "foobar" = "Zm9vYmFy" ∧
    bufferBase64 "é" = "w6k=" ∧ bufferBase64 "€" = "4oKs" ∧ bufferBase64 "😀" = "8J+YgA==" := by
  obtain ⟨hne, hall⟩ := verifyPayment_bodies JSONparse post payment s password hr hs
  refine ⟨hne, ?_, by decide, by decide, by decide, by decide, by decide, by decide, by decide,
    by decide, by decide, by decide⟩
  intro req hreq
  rw [hall req hreq]
  refine ⟨?_, ?_, receiptData_eq_self_iff s⟩
  · intro h
    exact (receiptData_eq_self_iff s).mpr (Or.inl h)
  · intro h
    have : ¬ (isBase64like s = true) := fun hh => h ((isBase64like_iff s).mp hh)
    simp only [receiptData, this, if_false]
    rfl

/-- Witness of C11: the payload `hello world` holds a space and is encoded. -/
theorem C11_receipt_data_normalisation_witness :
    (verifyPayment exampleParse exampleProductionPost
      { receipt := some (.str "hello world"), secret := none, productId := none,
        packageName := none }).requests ≠ [] ∧
    ∀ req ∈ (verifyPayment exampleParse exampleProductionPost
      { receipt := some (.str "hello world"), secret := none, productId := none,
        packageName := none }).requests,
      ¬ LooksLikeBase64 "hello world" → req.2.receiptData = bufferBase64 "hello world" :=
  ⟨(C11_receipt_data_normalisation exampleParse exampleProductionPost
      { receipt := some (.str "hello world"), secret := none, productId := none,
        packageName := none } "hello world" none rfl rfl).1,
   fun req hreq =>
    ((C11_receipt_data_normalisation exampleParse exampleProductionPost
      { receipt := some (.str "hello world"), secret := none, productId := none,
        packageName := none } "hello world" none rfl rfl).2.1 req hreq).2.1⟩

/-! ## C12: success returns the result of the parser -/

/-- C12. Whenever `verifyPayment` calls back with a null error, the endpoint
of the last request answered with HTTP status 200 and a body on which
`parseResult` succeeds, and the result handed to the callback holds exactly
the `receipt`, `latestReceiptInfo`, `productId` and `transactionId` of that
parsed result, together with the tag of that endpoint and nothing else. -/
theorem C12_success_returns_parsed_result (JSONparse : String → Option JSON)
    (post : String → RequestBody → PostResult) (payment : Payment) (res : Option Result)
    (h : (verifyPayment JSONparse post payment).outcome = .called none res) :
    ∃ url environment json text r,
      ((url = apiUrls.production ∧ environment = "production") ∨
        (url = apiUrls.sandbox ∧ environment = "sandbox")) ∧
      (verifyPayment JSONparse post payment).requests.getLast? = some (url, json) ∧
      post url json = .response 200 text ∧ parseResult JSONparse text = .ok r ∧
      res = some { parsed := some r, environment := environment } := by
  rcases verifyPayment_cases JSONparse post payment with hv | hv | ⟨json, _, hv⟩ | ⟨json, _, hv⟩
  · rw [hv] at h
    injection h with h1 _
    cases h1
  · rw [hv] at h
    cases h
  · rw [hv] at h ⊢
    obtain ⟨r, _, hres, _, hr⟩ := checkReceipt_called_none payment _ "production" res h
    obtain ⟨text, hpost, hparse⟩ := verify_parsed JSONparse post _ json [] r hres
    exact ⟨apiUrls.production, "production", json, text, r, Or.inl ⟨rfl, rfl⟩, rfl, hpost,
      hparse, hr⟩
  · rw [hv] at h ⊢
    obtain ⟨r, _, hres, _, hr⟩ := checkReceipt_called_none payment _ "sandbox" res h
    obtain ⟨text, hpost, hparse⟩ := verify_parsed JSONparse post _ json [] r hres
    exact ⟨apiUrls.sandbox, "sandbox", json, text, r, Or.inr ⟨rfl, rfl⟩, rfl, hpost,
      hparse, hr⟩

/-- Witness of C12: production verifies the receipt of the example. -/
theorem C12_success_returns_parsed_result_witness :
    ∃ res url environment json text r,
      (verifyPayment exampleParse exampleProductionPost
        (examplePayment (some "com.app.pro") (some "com.app"))).outcome = .called none res ∧
      ((url = apiUrls.production ∧ environment = "production") ∨
        (url = apiUrls.sandbox ∧ environment = "sandbox")) ∧
      exampleProductionPost url json = .response 200 text ∧
      parseResult exampleParse text = .ok r ∧
      res = some { parsed := some r, environment := environment } := by
  have h : (verifyPayment exampleParse exampleProductionPost
      (examplePayment (some "com.app.pro") (some "com.app"))).outcome =
      .called none (some ⟨some ⟨exampleReceipt, none, some (.str "com.app.pro"), some .null⟩,
        "production"⟩) := rfl
  obtain ⟨url, environment, json, text, r, h1, _, h3, h4, h5⟩ :=
    C12_success_returns_parsed_result exampleParse exampleProductionPost
      (examplePayment (some "com.app.pro") (some "com.app")) _ h
  exact ⟨_, url, environment, json, text, r, h, h1, h3, h4, h5⟩

/-! ## C13: request body -/

/-- C13. For every payment with a string receipt, every request of
`verifyPayment` carries a body whose `receipt-data` is the normalised receipt
and whose `password` is present if and only if `payment.secret` is supplied, in
which case it is the secret string; the body has no other field, being a value
of `RequestBody`. With a secret absent or a string a request is issued, and
when there are two requests, the first goes to production, the second to
sandbox, and their bodies are identical. -/
theorem C13_request_body (JSONparse : String → Option JSON)
    (post : String → RequestBody → PostResult) (payment : Payment) (receipt : String)
    (hr : payment.receipt = some (.str receipt)) :
    (∀ req ∈ (verifyPayment JSONparse post payment).requests,
      req.2.receiptData = receiptData receipt ∧
      (∀ sec, req.2.password = some sec ↔ payment.secret = some (.str sec)) ∧
      (req.2.password = none ↔ payment.secret = none)) ∧
    ((payment.secret = none ∨ ∃ sec, payment.secret = some (.str sec)) →
      (verifyPayment JSONparse post payment).requests ≠ []) ∧
    (∀ a b, (verifyPayment JSONparse post payment).requests = [a, b] →
      a.1 = apiUrls.production ∧ b.1 = apiUrls.sandbox ∧ a.2 = b.2) := by
  refine ⟨?_, ?_, ?_⟩
  · intro req hreq
    cases hsec : payment.secret with
    | none =>
      have hb := (verifyPayment_bodies JSONparse post payment receipt none hr
        (by rw [hsec]; rfl)).2 req hreq
      rw [hb]
      simp
    | some v =>
      cases v with
      | str sec =>
        have hb := (verifyPayment_bodies JSONparse post payment receipt (some sec) hr
          (by rw [hsec]; rfl)).2 req hreq
        rw [hb]
        simp
      | null => simp [verifyPayment, hr, hsec] at hreq
      | bool b => simp [verifyPayment, hr, hsec] at hreq
      | num n => simp [verifyPayment, hr, hsec] at hreq
      | arr xs => simp [verifyPayment, hr, hsec] at hreq
      | obj kvs => simp [verifyPayment, hr, hsec] at hreq
  · rintro (hsec | ⟨sec, hsec⟩)
    · exact (verifyPayment_bodies JSONparse post payment receipt none hr
        (by rw [hsec]; rfl)).1
    · exact (verifyPayment_bodies JSONparse post payment receipt (some sec) hr
        (by rw [hsec]; rfl)).1
  · intro a b hab
    rcases verifyPayment_cases JSONparse post payment with hv | hv | ⟨json, _, hv⟩ | ⟨json, _, hv⟩
    · rw [hv] at hab; cases hab
    · rw [hv] at hab; cases hab
    · rw [hv] at hab; cases hab
    · rw [hv] at hab
      simp only [List.cons.injEq, and_true] at hab
      obtain ⟨h1, h2⟩ := hab
      subst h1; subst h2
      exact ⟨rfl, rfl, rfl⟩

/-- Witness of C13: a payment with the secret `s3cret`, whose receipt is sent
to production and then to sandbox. -/
theorem C13_request_body_witness :
    (verifyPayment exampleParse examplePost
      { receipt := some (.str "abc"), secret := some (.str "s3cret"), productId := none,
        packageName := none }).requests =
      [(apiUrls.production, { receiptData := "abc", password := some "s3cret" }),
       (apiUrls.sandbox, { receiptData := "abc", password := some "s3cret" })] ∧
    ((apiUrls.production, ({ receiptData := "abc", password := some "s3cret" } : RequestBody)).2 =
      (apiUrls.sandbox, ({ receiptData := "abc", password := some "s3cret" } : RequestBody)).2) :=
  ⟨rfl,
   ((C13_request_body exampleParse examplePost
      { receipt := some (.str "abc"), secret := some (.str "s3cret"), productId := none,
        packageName := none } "abc" rfl).2.2 _ _ rfl).2.2⟩

/-! ## C14: input errors -/

/-- C14. A payment whose receipt is not a string fails with the input error
`Receipt must be a string`, handed to the callback without a result object; a
payment with a string receipt whose secret is supplied and is not a string
fails with the input error `Shared secret must be a string`, thrown by
`verifyPayment`. In both cases no HTTP request is issued, and no result object
and no environment tag is produced. -/
theorem C14_input_errors (JSONparse : String → Option JSON)
    (post : String → RequestBody → PostResult) (payment : Payment) :
    ((∀ s, payment.receipt ≠ some (.str s)) →
      verifyPayment JSONparse post payment =
        { requests := [],
          outcome := .called (some (.assertion "Receipt must be a string")) none }) ∧
    (∀ s v, payment.receipt = some (.str s) → payment.secret = some v →
      (∀ sec, v ≠ .str sec) →
      verifyPayment JSONparse post payment =
        { requests := [], outcome := .thrown (.assertion "Shared secret must be a string") }) := by
  refine ⟨?_, ?_⟩
  · intro h
    unfold verifyPayment
    split
    · rename_i receipt heq
      exact absurd heq (h receipt)
    · rfl
  · intro s v hr hsec hv
    cases v with
    | str sec => exact absurd rfl (hv sec)
    | null => simp only [verifyPayment, hr, hsec]
    | bool b => simp only [verifyPayment, hr, hsec]
    | num n => simp only [verifyPayment, hr, hsec]
    | arr xs => simp only [verifyPayment, hr, hsec]
    | obj kvs => simp only [verifyPayment, hr, hsec]

/-- Witness of C14: a payment without a receipt, and a payment whose secret is
`null`. -/
theorem C14_input_errors_witness :
    verifyPayment exampleParse examplePost
        { receipt := none, secret := none, productId := none, packageName := none } =
      { requests := [],
        outcome := .called (some (.assertion "Receipt must be a string")) none } ∧
    verifyPayment exampleParse examplePost
        { receipt := some (.str "abc"), secret := some .null, productId := none,
          packageName := none } =
      { requests := [], outcome := .thrown (.assertion "Shared secret must be a string") } :=
  ⟨(C14_input_errors exampleParse examplePost
      { receipt := none, secret := none, productId := none, packageName := none }).1
      (fun s h => by cases h),
   (C14_input_errors exampleParse examplePost
      { receipt := some (.str "abc"), secret := some .null, productId := none,
        packageName := none }).2 "abc" .null rfl rfl (fun sec h => by cases h)⟩

/-! ## C15: `parseResult` without renewal history -/

/-- C15, at the failing input: a response with status 0, without
`latest_receipt_info`, whose receipt is an object with `in_app` set to `null`.
`getReceiptFieldValue` throws on that receipt, and `parseResult` fails with the
`TypeError` instead of returning a result. -/
theorem C15_null_transaction_list_fails_parse :
    parseResult (fun _ => some (.obj [("status", .num 0), ("receipt", .obj [("in_app", .null)])]))
      "" = .error .typeError :=
  rfl

/-! ## C16: sorted renewal history -/

/-- C16 fails as stated: the identifiers 9007199254740993 and 9007199254740992
denote integers, `parseInt` reads both as `2^53`, and the returned list keeps
the order of the input, the larger identifier first. -/
theorem C16_counterexample :
    (9007199254740992 : Int) < 9007199254740993 ∧
    ∃ r, parseResult
        (fun _ => some (exampleRenewalResponse
          [exampleTransaction "9007199254740993" "new",
           exampleTransaction "9007199254740992" "old"])) "" = .ok r ∧
      r.latestReceiptInfo =
        some [exampleTransaction "9007199254740993" "new",
              exampleTransaction "9007199254740992" "old"] :=
  ⟨by decide, _, rfl, rfl⟩

/-- C16 (amended). For every response object with status 0 that does not shadow
`hasOwnProperty`, whose receipt the field extractor reads without failing, and
whose `latest_receipt_info` is a non-empty list `ys` of transactions whose
`transaction_id` strings are the decimal forms of integers `k x` of absolute
value at most `2^53`: `parseResult` succeeds, and the returned
`latestReceiptInfo` is a permutation of `ys`, ordered ascending by the integer
identifier. -/
theorem C16_sorted_renewal_history (JSONparse : String → Option JSON) (body : String)
    (kvs : List (String × JSON)) (receipt p0 t0 : JSON) (ys : List JSON) (k : JSON → Int)
    (hparse : JSONparse body = some (.obj kvs))
    (hshadow : lookupKey kvs "hasOwnProperty" = none)
    (hstatus : parseIntOf (lookupKey kvs "status") = .ok (.fin 0))
    (hreceipt : lookupKey kvs "receipt" = some receipt)
    (hp : getReceiptFieldValue receipt "product_id" = .ok p0)
    (ht : getReceiptFieldValue receipt "transaction_id" = .ok t0)
    (hinfo : lookupKey kvs "latest_receipt_info" = some (.arr ys))
    (hne : ys ≠ [])
    (hk : ∀ x ∈ ys, getOwn? x "transaction_id" = some (.str (intDecimal (k x))) ∧
      (k x).natAbs ≤ 2 ^ 53) :
    ∃ r sorted, parseResult JSONparse body = .ok r ∧
      r.latestReceiptInfo = some sorted ∧
      sorted.Perm ys ∧ sorted.Sorted (fun x y => k x ≤ k y) := by
  have hid : ∀ y ∈ ys, HasTransactionId y (k y) := by
    intro y hy
    obtain ⟨h1, h2⟩ := hk y hy
    exact ⟨_, h1, parseInt10_intDecimal _ h2⟩
  have hsort := jsSort_ok k ys hid
  haveI : IsTotal JSON (fun x y => k x ≤ k y) := ⟨fun a b => le_total (k a) (k b)⟩
  haveI : IsTrans JSON (fun x y => k x ≤ k y) := ⟨fun a b c hab hbc => le_trans hab hbc⟩
  have hsorted := List.sorted_insertionSort (fun x y => k x ≤ k y) ys
  have hperm := List.perm_insertionSort (fun x y => k x ≤ k y) ys
  cases ys with
  | nil => exact absurd rfl hne
  | cons first rest =>
    obtain ⟨fkvs, hfobj⟩ := isObj_of_transaction_id (hk first (List.mem_cons_self first rest)).1
    have htruthy : truthy first = true := by rw [hfobj]; rfl
    obtain ⟨last, hlast⟩ :
        ∃ last, ((first :: rest).insertionSort (fun x y => k x ≤ k y)).getLast? = some last := by
      cases hl : (first :: rest).insertionSort (fun x y => k x ≤ k y) with
      | nil =>
        have := hperm.length_eq
        rw [hl] at this
        simp at this
      | cons a l => exact ⟨_, List.getLast?_eq_getLast _ (List.cons_ne_nil a l)⟩
    have hlastY : last ∈ first :: rest := hperm.mem_iff.mp (List.mem_of_getLast?_eq_some hlast)
    obtain ⟨lkvs, hobj⟩ := isObj_of_transaction_id (hk last hlastY).1
    rw [hobj] at hlast
    exact ⟨_, _, parseResult_latest JSONparse body kvs receipt p0 t0 rest _ first lkvs hparse
      hshadow hstatus hreceipt hp ht hinfo htruthy hsort hlast, rfl, hperm, hsorted⟩

/-- Witness of C16: the identifiers `10` and `9` come back as `9` and `10`, in
numeric and not in string order. -/
theorem C16_sorted_renewal_history_witness :
    ∃ r sorted, parseResult
        (fun _ => some (exampleRenewalResponse
          [exampleTransaction "10" "a", exampleTransaction "9" "b"])) "" = .ok r ∧
      r.latestReceiptInfo = some sorted ∧
      sorted.Perm [exampleTransaction "10" "a", exampleTransaction "9" "b"] ∧
      sorted.Sorted (fun x y => exampleKey x ≤ exampleKey y) :=
  C16_sorted_renewal_history
    (fun _ => some (exampleRenewalResponse
      [exampleTransaction "10" "a", exampleTransaction "9" "b"])) ""
    _ (.obj [("product_id", .str "original"), ("transaction_id", .str "1")])
    (.str "original") (.str "1")
    [exampleTransaction "10" "a", exampleTransaction "9" "b"]
    exampleKey
    rfl rfl rfl rfl rfl rfl rfl (by simp)
    (by
      intro x hx
      simp only [List.mem_cons, List.mem_singleton, List.not_mem_nil, or_false] at hx
      rcases hx with rfl | rfl
      · exact ⟨rfl, by decide⟩
      · exact ⟨rfl, by decide⟩)

/-! ## C17: inherited property names pass the product check -/

/-- C17. A claimed product identifier that names a property of
`Object.prototype`, such as `constructor`, `toString` or `hasOwnProperty`, is
found by the lookup in every value set, the empty one included; the
reconciliation, and with it the whole of `verifyPayment`, ends as it does for
the same payment without a product claim: the product check never fails. -/
theorem C17_inherited_names_pass_product_check (p : String) (hp : p ∈ objectPrototypeKeys) :
    "constructor" ∈ objectPrototypeKeys ∧ "toString" ∈ objectPrototypeKeys ∧
    "hasOwnProperty" ∈ objectPrototypeKeys ∧
    (∀ hash : Hash, hash.lookupTruthy p = true) ∧
    (∀ (payment : Payment) (receipt : JSON), payment.productId = some p →
      reconcile payment receipt = reconcile { payment with productId := none } receipt) ∧
    (∀ (JSONparse : String → Option JSON) (post : String → RequestBody → PostResult)
      (payment : Payment), payment.productId = some p →
      verifyPayment JSONparse post payment =
        verifyPayment JSONparse post { payment with productId := none }) := by
  refine ⟨by decide, by decide, by decide, ?_, ?_, ?_⟩
  · intro hash
    simp only [Hash.lookupTruthy, Bool.or_eq_true, decide_eq_true_eq]
    exact Or.inr hp
  · intro payment receipt hpay
    exact reconcile_inherited payment receipt p hp hpay
  · intro JSONparse post payment hpay
    have hc : ∀ c environment, checkReceipt payment c environment =
        checkReceipt { payment with productId := none } c environment :=
      fun c environment => checkReceipt_congr _ _ c environment
        (fun receipt => reconcile_inherited payment receipt p hp hpay)
    simp only [verifyPayment, verifyAcrossEnvironments, hc]

/-- Witness of C17: the claim `constructor` against the empty value set, and
against the receipt of the example, which does not list it. -/
theorem C17_inherited_names_pass_product_check_witness :
    Hash.lookupTruthy [] "constructor" = true ∧
    reconcile (examplePayment (some "constructor") none) exampleReceipt = .ok none :=
  ⟨(C17_inherited_names_pass_product_check "constructor" (by decide)).2.2.2.1 [],
   ((C17_inherited_names_pass_product_check "constructor" (by decide)).2.2.2.2.1
      (examplePayment (some "constructor") none) exampleReceipt rfl).trans rfl⟩

/-! ## C18: normalisation is idempotent -/

/-- C18. Normalising the `receipt-data` twice gives the same as normalising it
once, for every string payload; for every non-empty payload the normalised
value is base64-like; and what the encoder produced is passed through
unmodified. -/
theorem C18_normalisation_idempotent :
    (∀ s, receiptData (receiptData s) = receiptData s) ∧
    (∀ s, s ≠ "" → isBase64like (receiptData s) = true) ∧
    (∀ s, receiptData (bufferBase64 s) = bufferBase64 s) := by
  have hlike : ∀ s, s ≠ "" → isBase64like (receiptData s) = true := by
    intro s hs
    unfold receiptData
    by_cases h : isBase64like s = true
    · simp only [h, if_true]
    · simp only [h]
      exact bufferBase64_like s hs
  have hbuf : ∀ s, receiptData (bufferBase64 s) = bufferBase64 s := by
    intro s
    by_cases hs : s = ""
    · subst hs; decide
    · simp only [receiptData, bufferBase64_like s hs, if_true]
  refine ⟨?_, hlike, hbuf⟩
  intro s
  by_cases hs : s = ""
  · subst hs; decide
  · have := hlike s hs
    rw [receiptData, if_pos this]

/-- Witness of C18: the payload `hello world`. -/
theorem C18_normalisation_idempotent_witness :
    ("hello world" : String) ≠ "" ∧ receiptData "hello world" = "aGVsbG8gd29ybGQ=" ∧
    isBase64like (receiptData "hello world") = true :=
  ⟨by decide, by decide, C18_normalisation_idempotent.2.1 "hello world" (by decide)⟩

/-! ## C19: agreement of the two field extractors -/

/-- C19, at the failing input: a receipt object whose only transaction has the
`product_id` `__proto__`, and a receipt object that carries that `product_id`
itself. `getReceiptFieldValue` returns the string `__proto__`, while the set of
`getReceiptFieldValueHash` is empty: the string is not a key of it. -/
theorem C19_extractors_disagree_on_proto :
    getReceiptFieldValue
      (.obj [("in_app", .arr [.obj [("product_id", .str "__proto__")]])]) "product_id" =
        .ok (.str "__proto__") ∧
    getReceiptFieldValueHash
      (.obj [("in_app", .arr [.obj [("product_id", .str "__proto__")]])]) "product_id" =
        .ok [] ∧
    getReceiptFieldValue (.obj [("product_id", .str "__proto__")]) "product_id" =
      .ok (.str "__proto__") ∧
    getReceiptFieldValueHash (.obj [("product_id", .str "__proto__")]) "product_id" = .ok [] :=
  ⟨rfl, rfl, rfl, rfl⟩

/-! ## C20: a status error carries no receipt data -/

/-- C20. For a payment with a string receipt and a valid secret: when the
endpoint that answers reports a status other than zero (production with a
status other than 21007, or sandbox after production reported 21007), the
callback receives the status error together with a result object that holds
the environment tag and nothing else, whatever else the body contained. -/
theorem C20_status_error_carries_no_receipt (JSONparse : String → Option JSON)
    (post : String → RequestBody → PostResult) (payment : Payment) (receipt : String)
    (password : Option String) (s : JSNum)
    (hr : payment.receipt = some (.str receipt))
    (hs : payment.secret = password.map JSON.str) :
    (AnswersStatus JSONparse post apiUrls.production
        { receiptData := receiptData receipt, password := password } s →
      s ≠ .fin 21007 →
      (verifyPayment JSONparse post payment).outcome =
        .called (some (statusError s)) (some { parsed := none, environment := "production" })) ∧
    (AnswersStatus JSONparse post apiUrls.production
        { receiptData := receiptData receipt, password := password } (.fin 21007) →
      AnswersStatus JSONparse post apiUrls.sandbox
        { receiptData := receiptData receipt, password := password } s →
      (verifyPayment JSONparse post payment).outcome =
        .called (some (statusError s)) (some { parsed := none, environment := "sandbox" })) := by
  rw [verifyPayment_valid JSONparse post payment receipt password hr hs]
  refine ⟨?_, ?_⟩
  · intro hA hne
    have hno : ¬ AnswersStatus JSONparse post apiUrls.production
        { receiptData := receiptData receipt, password := password } (.fin 21007) :=
      fun h => hne (answersStatus_unique JSONparse post _ _ _ _ hA h)
    rw [verifyAcrossEnvironments_single JSONparse post payment _ hno]
    simp only
    rw [verify_answersStatus JSONparse post apiUrls.production _ [] s hA]
    exact checkReceipt_error payment _ "production" _ rfl (fun r h => by cases h)
  · intro hA hB
    rw [verifyAcrossEnvironments_retry JSONparse post payment _ hA]
    simp only
    rw [verify_answersStatus JSONparse post apiUrls.sandbox _ [] s hB]
    exact checkReceipt_error payment _ "sandbox" _ rfl (fun r h => by cases h)

/-- Witness of C20: production reports 21006 and returns the decoded receipt;
the callback receives the error and the tag only. -/
theorem C20_status_error_carries_no_receipt_witness :
    AnswersStatus exampleExpiredParse exampleProductionPost apiUrls.production
      { receiptData := receiptData "abc", password := none } (.fin 21006) ∧
    (verifyPayment exampleExpiredParse exampleProductionPost (examplePayment none none)).outcome =
      .called (some (statusError (.fin 21006)))
        (some { parsed := none, environment := "production" }) :=
  have hA : AnswersStatus exampleExpiredParse exampleProductionPost apiUrls.production
      { receiptData := receiptData "abc", password := none } (.fin 21006) :=
    ⟨"verified", _, some (.num 21006), rfl, rfl, rfl, rfl, by decide⟩
  ⟨hA, (C20_status_error_carries_no_receipt exampleExpiredParse exampleProductionPost
    (examplePayment none none) "abc" none (.fin 21006) rfl rfl).1 hA (by decide)⟩

end ZnsIap
